import Mathlib

/-!
Verification of the Document Geometry & Structural Mutation Engine
(`backend/modules/rtl_converter.py`, `backend/modules/text_replacer.py`,
`backend/modules/chart_collision_fixer.py`,
`backend/workflows/translate_all_slides.py`).

The Python code operates on python-pptx shapes.  We embed the document
model shallowly: a slide is a list of shapes; geometry attributes are
`Option Int` (EMU; `none` = attribute absent/inherited, matching
python-pptx `None`); text frames hold paragraphs which hold runs.
External document-model operations (python-pptx) are modelled at the
accessor boundary the specification describes (e.g. clearing a text
frame removes all paragraphs; a freshly added paragraph carries no
formatting and no bidi flag).
-/

namespace Engine

/-- Shape-type discriminant (`MSO_SHAPE_TYPE` as used by the engine). -/
inductive SType where
  | chart
  | group
  | autoShape
  | textBox
  | placeholder
  | table
  | picture
  deriving DecidableEq, Repr

/-- Paragraph alignment (`PP_ALIGN`). -/
inductive Align where
  | left
  | center
  | right
  | justify
  deriving DecidableEq, Repr

/-- Text-frame autosize mode (`MSO_AUTO_SIZE`). -/
inductive AutoSizeMode where
  | noAuto
  | textToFitShape
  | shapeToFitText
  deriving DecidableEq, Repr

/-- Run-level font attributes (`run.font`).  `none` = inherited.
Sizes are python-pptx `Length` integers (EMU, 1 pt = 12700). -/
structure Font where
  bold : Option Bool
  italic : Option Bool
  underline : Option Bool
  name : Option String
  size : Option Nat
  color : Option String
  deriving DecidableEq, Repr

/-- A text run. -/
structure TRun where
  text : String
  font : Font
  deriving DecidableEq, Repr

/-- A paragraph.  `rtl` models the `rtl="1"` attribute on `a:pPr`
(`false` = attribute absent or `0`): the bidi-reversal marker. -/
structure Paragraph where
  rtl : Bool
  alignment : Option Align
  level : Nat
  lineSpacing : Option Int
  spaceBefore : Option Int
  spaceAfter : Option Int
  runs : List TRun
  deriving DecidableEq, Repr

/-- A text frame. -/
structure TextFrame where
  paragraphs : List Paragraph
  wordWrap : Option Bool
  autoSize : Option AutoSizeMode
  marginLeft : Option Int
  marginRight : Option Int
  marginTop : Option Int
  marginBottom : Option Int
  deriving DecidableEq, Repr

/-- A shape stored inside a group (`grpSp` child).  The engine only
reads the type and geometry of group children. -/
structure ChildShape where
  sid : Nat
  stype : SType
  left : Option Int
  top : Option Int
  width : Option Int
  height : Option Int
  deriving DecidableEq, Repr

/-- A top-level shape of a slide.  `sid` models `_get_shape_id`
(the `id_name` string derived from `p:cNvPr`); `isTitlePlaceholder`
models `is_placeholder ∧ "title" ∈ name.lower()`; `isArrowName`
models `"Arrow"/"arrow" ∈ name`. -/
structure Shape where
  sid : Nat
  stype : SType
  isTitlePlaceholder : Bool
  isArrowName : Bool
  rotation : Int
  left : Option Int
  top : Option Int
  width : Option Int
  height : Option Int
  textFrame : Option TextFrame
  children : List ChildShape
  deriving DecidableEq, Repr

/-- Python truthiness-with-default-0 access (`x.left if x.left else 0`
and `x.left if x.left is not None else 0` both reduce to this on
integers, since a stored 0 and an absent value both yield 0). -/
def tv (x : Option Int) : Int := x.getD 0

/-! ## Geometry primitives (`rtl_converter._flip_shape_position`) -/

/-- The mirror computation of `_flip_shape_position`:
`new_left = slide_width - (old_left + width)`, then
`new_left = max(0, new_left)`, then
`new_left = min(new_left, slide_width - width)`. -/
def mirror (left width axisWidth : Int) : Int :=
  min (max 0 (axisWidth - (left + width))) (axisWidth - width)

/-- A chart bounding region (`_get_chart_regions` entry). -/
structure Region where
  rleft : Int
  rtop : Int
  rright : Int
  rbottom : Int
  deriving DecidableEq, Repr

/-- The `_get_chart_regions`: bounding boxes of all chart shapes that have
a defined left and width. -/
def get_chart_regions (shapes : List Shape) : List Region :=
  shapes.filterMap fun s =>
    if s.stype = SType.chart then
      match s.left, s.width with
      | some l, some w =>
          some { rleft := l, rtop := s.top.getD 0, rright := l + w,
                 rbottom := s.top.getD 0 + s.height.getD 0 }
      | _, _ => none
    else none

/-- Fixed proximity radius used by `_is_near_chart` (≈0.75 in). -/
def chartProximity : Int := 700000

/-- The `_is_near_chart`: the shape's top-left corner lies within the
proximity-expanded box of some chart region. -/
def is_near_chart (s : Shape) (regions : List Region) : Bool :=
  regions.any fun r =>
    tv s.left ≥ r.rleft - chartProximity ∧
    tv s.left ≤ r.rright + chartProximity ∧
    tv s.top ≥ r.rtop - chartProximity ∧
    tv s.top ≤ r.rbottom + chartProximity

/-- The `_flip_shape_horizontally` (arrow rule):
`new_rotation = (180 - current_rotation) % 360`. -/
def flip_shape_horizontally (s : Shape) : Shape :=
  { s with rotation := (180 - s.rotation) % 360 }

/-- The `_flip_shape_position`: skip charts; skip text shapes near charts;
skip shapes with undefined left or width; otherwise mirror the left,
re-assign top/width/height explicitly (top defaults to 0, height
defaults to the width when undefined), and mirror the rotation of
arrow-named autoshapes. -/
def flip_shape_position (slideWidth : Int) (regions : List Region)
    (s : Shape) : Shape :=
  if s.stype = SType.chart then s
  else if ¬regions.isEmpty ∧ s.textFrame.isSome ∧ is_near_chart s regions then s
  else
    match s.left, s.width with
    | some oldLeft, some w =>
        let newLeft := mirror oldLeft w slideWidth
        let s' := { s with left := some newLeft,
                           top := some (s.top.getD 0),
                           width := some w,
                           height := some (s.height.getD w) }
        if s.stype = SType.autoShape ∧ s.isArrowName then
          flip_shape_horizontally s'
        else s'
    | _, _ => s

/-! ## Paragraph-level RTL handling (`rtl_converter`) -/

/-- The `_remove_rtl_from_paragraph`: delete the `rtl` attribute. -/
def remove_rtl_from_paragraph (p : Paragraph) : Paragraph :=
  { p with rtl := false }

/-- The `_set_text_rtl_and_alignment`: on a shape with a text frame, set
every paragraph's alignment to RIGHT and remove its `rtl` attribute. -/
def set_text_rtl_and_alignment (s : Shape) : Shape :=
  match s.textFrame with
  | none => s
  | some tf =>
      let ps := tf.paragraphs.map (fun p =>
        remove_rtl_from_paragraph { p with alignment := some Align.right })
      { s with textFrame := some { tf with paragraphs := ps } }

/-- The per-slide body of `flip_to_rtl_layout`: compute chart regions,
flip every shape's position, then right-align and de-RTL the text of
every shape that has a text frame. -/
def flip_slide (slideWidth : Int) (shapes : List Shape) : List Shape :=
  let regions := get_chart_regions shapes
  let flipped := shapes.map (flip_shape_position slideWidth regions)
  flipped.map fun s => if s.textFrame.isSome then set_text_rtl_and_alignment s else s

/-! ## Text mutator (`text_replacer.py`) -/

/-- Run-level formatting snapshot (`original_formatting` /
`para_data['formatting']`). -/
structure RunFmt where
  fBold : Option Bool
  fItalic : Option Bool
  fUnderline : Option Bool
  fontName : Option String
  fontSize : Option Nat
  color : Option String
  deriving DecidableEq, Repr

/-- Paragraph-level formatting snapshot (`para_formatting`). -/
structure ParaFmt where
  pLineSpacing : Option Int
  pSpaceBefore : Option Int
  pSpaceAfter : Option Int
  deriving DecidableEq, Repr

/-- One entry of `original_data` in `_replace_bullets`.  `none` for
`formatting`/`para_formatting` models the empty dict `{}` (which is
falsy and skips the restore step). -/
structure ParaSnapshot where
  level : Nat
  formatting : Option RunFmt
  paraFormatting : Option ParaFmt
  deriving DecidableEq, Repr

/-- The padding entry `{'level': 0, 'formatting': {}, 'para_formatting': {}}`. -/
def defaultSnapshot : ParaSnapshot :=
  { level := 0, formatting := none, paraFormatting := none }

/-- The `run.font` of a freshly added run: everything inherited. -/
def freshFont : Font :=
  { bold := none, italic := none, underline := none,
    name := none, size := none, color := none }

/-- Snapshot of the first run's font. -/
def snapshotRunFmt (r : TRun) : RunFmt :=
  { fBold := r.font.bold, fItalic := r.font.italic,
    fUnderline := r.font.underline, fontName := r.font.name,
    fontSize := r.font.size, color := r.font.color }

/-- Snapshot of paragraph-level formatting. -/
def snapshotParaFmt (p : Paragraph) : ParaFmt :=
  { pLineSpacing := p.lineSpacing, pSpaceBefore := p.spaceBefore,
    pSpaceAfter := p.spaceAfter }

/-- The `paragraph.text` (concatenation of run texts). -/
def paragraphText (p : Paragraph) : String :=
  (p.runs.map TRun.text).foldl String.append ""

/-- Python `str.strip()` (drop leading/trailing whitespace), written
over the character list so it evaluates in the kernel. -/
def pyStrip (s : String) : String :=
  String.mk (((s.data.dropWhile Char.isWhitespace).reverse.dropWhile
    Char.isWhitespace).reverse)

/-- The `paragraph.text.strip()` nonempty test used by `_replace_bullets`. -/
def paraHasText (p : Paragraph) : Bool :=
  pyStrip (paragraphText p) ≠ ""

/-- The snapshot loop of `_replace_bullets`: one entry per paragraph
with nonempty stripped text; run formatting from the first run when
present, the empty dict otherwise. -/
def bulletSnapshots (tf : TextFrame) : List ParaSnapshot :=
  tf.paragraphs.filterMap fun p =>
    if paraHasText p then
      some { level := p.level,
             formatting := p.runs.head?.map snapshotRunFmt,
             paraFormatting := some (snapshotParaFmt p) }
    else none

/-- The engine's fixed gray palette (`gray_colors`). -/
def grayColors : List String :=
  ["CCCCCC", "CCCECE", "C0C0C0", "CACACA", "D3D3D3", "BEBEBE"]

/-- Python `str.upper()` (uppercase every character), written over the
character list so it evaluates in the kernel. -/
def pyUpper (s : String) : String := String.mk (s.data.map Char.toUpper)

/-- Gray-to-black promotion: `if str(color).upper() in gray_colors:
black else original`. -/
def convertColor (c : String) : String :=
  if pyUpper c ∈ grayColors then "000000" else c

/-- Font-family normalization.  The source checks the original family
against a list of Arabic-capable fonts, but *both* branches assign
`'Arial'` ("Even if it supports Arabic, prefer Arial"), so the result
is `Arial` for every (truthy) original family. -/
def normalizeFontName (_origName : String) : String := "Arial"

/-- Font-size scaling `int(original_size * 0.9)` on a python-pptx
`Length` integer.  For integer EMU sizes the float product `x * 0.9`
truncates to `⌊9x/10⌋`, which we use directly (e.g. `Pt(18) = 228600`
scales to `205740 = Pt(16.2)`). -/
def scaleFontSize (sz : Nat) : Nat := sz * 9 / 10

/-- The run-formatting restore block shared by `_replace_single_text`
and `_replace_bullets`, applied to a fresh run's font.  Each attribute
is written only when the snapshot value is truthy (`is not None` for
bold/italic/underline; Python truthiness for name/size/color — a
color, when present, is a nonempty `RGBColor` and always truthy). -/
def applyRunFmt (fmt : RunFmt) (f : Font) : Font :=
  let f1 := match fmt.fBold with
    | some b => { f with bold := some b }
    | none => f
  let f2 := match fmt.fItalic with
    | some b => { f1 with italic := some b }
    | none => f1
  let f3 := match fmt.fUnderline with
    | some b => { f2 with underline := some b }
    | none => f2
  let f4 := match fmt.fontName with
    | some n => if n ≠ "" then { f3 with name := some (normalizeFontName n) } else f3
    | none => f3
  let f5 := match fmt.fontSize with
    | some sz => if sz ≠ 0 then { f4 with size := some (scaleFontSize sz) } else f4
    | none => f4
  match fmt.color with
  | some c => { f5 with color := some (convertColor c) }
  | none => f5

/-- The paragraph-formatting restore block: each attribute written
only when the snapshot value `is not None`. -/
def applyParaFmt (pf : ParaFmt) (p : Paragraph) : Paragraph :=
  let p1 := match pf.pLineSpacing with
    | some v => { p with lineSpacing := some v }
    | none => p
  let p2 := match pf.pSpaceBefore with
    | some v => { p1 with spaceBefore := some v }
    | none => p1
  match pf.pSpaceAfter with
  | some v => { p2 with spaceAfter := some v }
  | none => p2

/-- Construction of one replacement paragraph (`add_paragraph` +
`add_run` + level + RIGHT alignment + formatting restore).  The new
paragraph never carries the `rtl` attribute ("We do NOT set rtl=1"). -/
def buildParagraph (text : String) (snap : ParaSnapshot) : Paragraph :=
  let base : Paragraph :=
    { rtl := false, alignment := some Align.right, level := snap.level,
      lineSpacing := none, spaceBefore := none, spaceAfter := none,
      runs := [{ text := text, font :=
        match snap.formatting with
        | some fmt => applyRunFmt fmt freshFont
        | none => freshFont }] }
  match snap.paraFormatting with
  | some pf => applyParaFmt pf base
  | none => base

/-- The `Inches(0.03)` in EMU: the normalized margin. -/
def smallMargin : Int := 27432

/-- The unconditional text-frame configuration applied by both replace
operations: word wrap on, shrink-to-fit autosize, small margins.  The
text-frame clear is modelled at the accessor boundary of the
specification ("Clear all paragraphs/runs in the text frame"). -/
def clearedFrame (paras : List Paragraph) : TextFrame :=
  { paragraphs := paras, wordWrap := some true,
    autoSize := some AutoSizeMode.textToFitShape,
    marginLeft := some smallMargin, marginRight := some smallMargin,
    marginTop := some smallMargin, marginBottom := some smallMargin }

/-- The `_replace_bullets`: snapshot level/formatting of each nonempty
paragraph, pad with default entries up to the number of replacement
strings, clear the frame, and emit one right-aligned paragraph per
replacement string with the (padded) snapshot re-applied. -/
def replace_bullets (s : Shape) (translations : List String) : Shape :=
  match s.textFrame with
  | none => s
  | some tf =>
      let snaps := bulletSnapshots tf
      let padded := snaps ++
        List.replicate (translations.length - snaps.length) defaultSnapshot
      let paras := (translations.zip padded).map (fun tp => buildParagraph tp.1 tp.2)
      { s with textFrame := some (clearedFrame paras) }

/-- The snapshot phase of `_replace_single_text`: paragraph formatting
from the first paragraph, run formatting from its first run. -/
def singleSnapshot (tf : TextFrame) : ParaSnapshot :=
  match tf.paragraphs.head? with
  | none => { level := 0, formatting := none, paraFormatting := none }
  | some p =>
      { level := 0, formatting := p.runs.head?.map snapshotRunFmt,
        paraFormatting := some (snapshotParaFmt p) }

/-- The `_replace_single_text`: snapshot, clear, emit a single
right-aligned paragraph carrying the translation. -/
def replace_single_text (s : Shape) (translation : String) : Shape :=
  match s.textFrame with
  | none => s
  | some tf =>
      let paras := [buildParagraph translation (singleSnapshot tf)]
      { s with textFrame := some (clearedFrame paras) }

/-! ## Collision resolver (`chart_collision_fixer.py`) -/

/-- The `min_spacing` (0.2 in) shared by both collision sub-passes. -/
def minSpacing : Int := 182880

/-- The `_contains_chart`: the group has a chart among its direct children. -/
def contains_chart (s : Shape) : Bool :=
  s.children.any fun c => c.stype = SType.chart

/-- The `group_info` record captured by `detect_chart_collisions`.
`right`/`bottom` reproduce the source's truthiness guard:
`(left + width) if left and width else 0`. -/
structure GroupInfo where
  gsid : Nat
  gleft : Int
  gtop : Int
  gwidth : Int
  gheight : Int
  gright : Int
  gbottom : Int
  deriving DecidableEq, Repr

/-- Build a `group_info` record from a group shape. -/
def mkGroupInfo (s : Shape) : GroupInfo :=
  { gsid := s.sid,
    gleft := tv s.left, gtop := tv s.top,
    gwidth := tv s.width, gheight := tv s.height,
    gright := if tv s.left ≠ 0 ∧ tv s.width ≠ 0 then tv s.left + tv s.width else 0,
    gbottom := if tv s.top ≠ 0 ∧ tv s.height ≠ 0 then tv s.top + tv s.height else 0 }

/-- The strict overlap test of `_detect_collisions_on_slide`
(`h_overlap and v_overlap`). -/
def infoOverlap (a b : GroupInfo) : Bool :=
  a.gleft < b.gright ∧ a.gright > b.gleft ∧
  a.gtop < b.gbottom ∧ a.gbottom > b.gtop

/-- One collision record: the stale `group_info` of the chart group
and of the other group, captured at detection time. -/
structure Collision where
  chartInfo : GroupInfo
  otherInfo : GroupInfo
  deriving DecidableEq, Repr

/-- The `detect_chart_collisions` on one slide: chart groups vs non-chart
groups, every strictly overlapping pair. -/
def detect_collisions (shapes : List Shape) : List Collision :=
  let chartGroups := (shapes.filter fun s =>
    s.stype = SType.group ∧ contains_chart s).map mkGroupInfo
  let otherGroups := (shapes.filter fun s =>
    s.stype = SType.group ∧ ¬contains_chart s).map mkGroupInfo
  chartGroups.flatMap fun cg =>
    (otherGroups.filter fun og => infoOverlap cg og).map fun og =>
      { chartInfo := cg, otherInfo := og }

/-- The shift computation of `_shift_chart_to_minimize_overlap`.
Option 1 (land left of the object) is valid when it stays on-slide;
option 2 (land right of the object) is always considered valid, so
the flush-right fallback branch is unreachable.  When both are valid
the smaller absolute shift wins, ties preferring option 1. -/
def shift_chart_new_left (chartLeft chartWidth otherLeft otherRight : Int) : Int :=
  let option1 := otherLeft - chartWidth - minSpacing
  let option2 := otherRight + minSpacing
  if option1 ≥ 0 then
    if |option1 - chartLeft| ≤ |option2 - chartLeft| then option1 else option2
  else option2

/-- The `fix_chart_collisions_option_c` restricted to one slide: detect
all collisions once, then apply each shift in order to the live chart
shape (the collision records keep the stale detection-time geometry). -/
def fix_chart_collisions_slide (shapes : List Shape) : List Shape :=
  let collisions := detect_collisions shapes
  collisions.foldl
    (fun cur col =>
      cur.map fun s =>
        if s.sid = col.chartInfo.gsid then
          { s with left := some (shift_chart_new_left col.chartInfo.gleft
              col.chartInfo.gwidth col.otherInfo.gleft col.otherInfo.gright) }
        else s)
    shapes

/-! ## Group-vs-group sub-pass (`rtl_converter._adjust_overlapping_groups`).
Defined in the repository but never invoked by any pipeline stage. -/

/-- One adjacent-pair step of `_adjust_overlapping_groups`: if the
horizontal gap is below `min_spacing` *and* the vertical intervals
overlap, shift the right-hand group right by the shortfall; if that
would exceed the slide width, shift the left-hand group left by the
shortfall when that stays non-negative; otherwise leave both. -/
def adjust_pair (slideWidth : Int) (cur next : Shape) : Shape × Shape :=
  let curLeft := tv cur.left
  let curRight := curLeft + tv cur.width
  let nextLeft := tv next.left
  let nextWidth := tv next.width
  let curTop := tv cur.top
  let curBottom := curTop + tv cur.height
  let nextTop := tv next.top
  let nextBottom := nextTop + tv next.height
  let horizontalGap := nextLeft - curRight
  let horizontalOverlap := horizontalGap < minSpacing
  let verticalOverlap := ¬(curBottom ≤ nextTop ∨ nextBottom ≤ curTop)
  if horizontalOverlap ∧ verticalOverlap then
    let shiftAmount := minSpacing - horizontalGap
    let newLeft := nextLeft + shiftAmount
    if newLeft + nextWidth ≤ slideWidth then
      (cur, { next with left := some newLeft })
    else
      let newCurrentLeft := curLeft - shiftAmount
      if newCurrentLeft ≥ 0 then
        ({ cur with left := some newCurrentLeft }, next)
      else (cur, next)
  else (cur, next)

/-- Stable insertion by left position (before the first element with a
strictly larger key, after equal keys). -/
def insert_by_left (g : Shape) : List Shape → List Shape
  | [] => [g]
  | h :: t => if tv g.left ≤ tv h.left then g :: h :: t else h :: insert_by_left g t

/-- Python's stable `sorted(groups, key=left)`, as a stable insertion
sort (any stable sort produces the same list). -/
def sort_groups_by_left (l : List Shape) : List Shape :=
  l.foldr insert_by_left []

/-- The adjacent-pair loop, carrying the (possibly already shifted)
left-hand group of the current pair. -/
def adjust_loop_from (slideWidth : Int) : Shape → List Shape → List Shape
  | g, [] => [g]
  | g1, g2 :: rest =>
      let pr := adjust_pair slideWidth g1 g2
      pr.1 :: adjust_loop_from slideWidth pr.2 rest

/-- The adjacent-pair loop: pair `i` is examined with the value of
group `i+1` as updated by pair `i-1`'s step. -/
def adjust_loop (slideWidth : Int) : List Shape → List Shape
  | [] => []
  | g :: t => adjust_loop_from slideWidth g t

/-- The `_adjust_overlapping_groups` restricted to the slide's groups:
skip slides with fewer than two groups, otherwise sort by left
ascending (stable) and run the adjacent-pair loop. -/
def adjust_overlapping_groups (slideWidth : Int) (groups : List Shape) : List Shape :=
  if groups.length < 2 then groups
  else adjust_loop slideWidth (sort_groups_by_left groups)

/-- The post-mirror collision stage as actually wired in
`translate_all_slides` (Step 5.5): only the chart-vs-object pass runs;
`_adjust_overlapping_groups` is never called. -/
def collision_stage (shapes : List Shape) : List Shape :=
  fix_chart_collisions_slide shapes

/-! ## Group synthesizer (`rtl_converter._group_shapes_xml`) -/

/-- Python `min(...)` over a list of values (the guarded call sites
ensure the list is nonempty; the default is never reached there). -/
def listMin : List Int → Int
  | [] => 0
  | x :: t => t.foldl min x

/-- Python `max(...)` over a list of values. -/
def listMax : List Int → Int
  | [] => 0
  | x :: t => t.foldl max x

/-- A fresh identifier for a newly created group.  The source derives
the group's `cNvPr` id/name from the shape-tree length (`len(spTree)+1`,
name `Group n`), which does not collide with any existing shape's
`id_name` key on a non-pathological slide; we model it as an id
strictly larger than every id on the slide. -/
def freshSid (shapes : List Shape) : Nat :=
  (shapes.foldl (fun a s => max a s.sid) 0) + 1

/-- Conversion of a member shape to a group child: when the shape has
an explicit transform (`a:off` present, i.e. a defined left), its
stored position is rewritten to group-local coordinates
(`absolute - boundingBoxOrigin`, absolutes captured before mutation,
`None` components defaulting to 0); width/height are never written. -/
def shapeToChild (minLeft minTop : Int) (s : Shape) : ChildShape :=
  if s.left.isSome then
    { sid := s.sid, stype := s.stype,
      left := some (tv s.left - minLeft), top := some (tv s.top - minTop),
      width := s.width, height := s.height }
  else
    { sid := s.sid, stype := s.stype,
      left := s.left, top := s.top, width := s.width, height := s.height }

/-- The `min_left = min(s.left for s in shapes_to_group if s.left is not None)`. -/
def bboxMinLeft (members : List Shape) : Int :=
  listMin ((members.filter fun m => m.left.isSome).map fun m => tv m.left)

/-- The `min_top`, over the members with a defined top. -/
def bboxMinTop (members : List Shape) : Int :=
  listMin ((members.filter fun m => m.top.isSome).map fun m => tv m.top)

/-- The `max_right`, over the members with both left and width defined. -/
def bboxMaxRight (members : List Shape) : Int :=
  listMax ((members.filter fun m => m.left.isSome ∧ m.width.isSome).map
    fun m => tv m.left + tv m.width)

/-- The `max_bottom`, over all members with None components defaulting to 0. -/
def bboxMaxBottom (members : List Shape) : Int :=
  listMax (members.map fun m => tv m.top + tv m.height)

/-- The new `grpSp`: positioned at the bounding-box origin with the
bounding-box extent (child offset (0,0), child extent = extent, i.e. a
1:1 child frame), holding the members converted to group-local
coordinates. -/
def groupOf (slide members : List Shape) : Shape :=
  { sid := freshSid slide, stype := SType.group,
    isTitlePlaceholder := false, isArrowName := false, rotation := 0,
    left := some (bboxMinLeft members), top := some (bboxMinTop members),
    width := some (bboxMaxRight members - bboxMinLeft members),
    height := some (bboxMaxBottom members - bboxMinTop members),
    textFrame := none,
    children := members.map (shapeToChild (bboxMinLeft members) (bboxMinTop members)) }

/-- The `_group_shapes_xml`: compute the members' bounding box, build a
`grpSp` positioned at the box origin with the box extent, move each
member under it with group-local coordinates, and append the group to
the shape tree.  Returns `none` when a bounding-box `min`/`max` runs
over an empty generator (Python `ValueError`, caught by the caller
before any mutation happens); fewer than 2 members is a logged no-op. -/
def group_shapes_xml (slide : List Shape) (members : List Shape) :
    Option (List Shape) :=
  if members.length < 2 then some slide
  else if (members.filter fun m => m.left.isSome).isEmpty ∨
      (members.filter fun m => m.top.isSome).isEmpty ∨
      (members.filter fun m => m.left.isSome ∧ m.width.isSome).isEmpty then none
  else
    some ((slide.filter fun s => ¬(members.map Shape.sid).contains s.sid)
      ++ [groupOf slide members])

/-! ## Shape association and `group_chart_elements` (`rtl_converter`) -/

/-- Chart test. -/
def is_chart (s : Shape) : Bool := s.stype = SType.chart

/-- A shape eligible for chart association (step 2's skips: not a
chart, not a pre-existing group, not a title placeholder). -/
def eligibleShape (s : Shape) : Bool :=
  s.stype ≠ SType.chart ∧ s.stype ≠ SType.group ∧ ¬s.isTitlePlaceholder

/-- The `_distance_to_chart`, squared to stay in integers (`none` models
`float('inf')` for undefined positions; the square root is monotone,
so comparisons agree).  Touching or overlapping rectangles give 0;
otherwise the Pythagorean combination of the edge gaps. -/
def dist_sq_to_chart (s c : Shape) : Option Int :=
  match s.left, s.top, c.left, c.top with
  | some sl, some st, some cl, some ct =>
      let sr := sl + s.width.getD 0
      let sb := st + s.height.getD 0
      let cr := cl + c.width.getD 0
      let cb := ct + c.height.getD 0
      if sr ≥ cl ∧ sl ≤ cr ∧ sb ≥ ct ∧ st ≤ cb then some 0
      else
        let dx := if sr < cl then cl - sr else if sl > cr then sl - cr else 0
        let dy := if sb < ct then ct - sb else if st > cb then st - cb else 0
        some (dx * dx + dy * dy)
  | _, _, _, _ => none

/-- Strict comparison with `none` as infinity (`d < min_distance`). -/
def optLt : Option Int → Option Int → Bool
  | some a, some b => a < b
  | some _, none => true
  | none, _ => false

/-- The nearest-chart scan: running `(index, best_idx, best_dist)`
updated on strict improvement, so the first chart attaining the
minimum wins. -/
def nearestChart (charts : List Shape) (s : Shape) : Option Nat × Option Int :=
  (charts.foldl
    (fun acc c =>
      let d := dist_sq_to_chart s c
      if optLt d acc.2.2 then (acc.1 + 1, some acc.1, d)
      else (acc.1 + 1, acc.2.1, acc.2.2))
    ((0 : Nat), (none : Option Nat), (none : Option Int))).2

/-- Step 2's association: an eligible shape enters the map only when
its minimum distance is within the strict threshold 0. -/
def assignedChart (charts : List Shape) (s : Shape) : Option Nat :=
  if eligibleShape s then
    match nearestChart charts s with
    | (some i, some d) => if d ≤ 0 then some i else none
    | _ => none
  else none

/-- The `shape_to_nearest_chart` map, keyed by shape id. -/
def buildAssoc (shapes : List Shape) : List (Nat × Nat) :=
  let charts := shapes.filter is_chart
  shapes.filterMap fun s => (assignedChart charts s).map fun i => (s.sid, i)

/-- State of step 3's loop: the current shape tree, the
`already_grouped` id set, and `groups_created`. -/
structure GState where
  cur : List Shape
  alr : List Nat
  created : Nat
  deriving Repr

/-- The inner collection loop of step 3: walk the current shape tree
and gather (in order) the shapes assigned to chart `cidx` that are not
already grouped, starting from `[chart]` with the chart marked
grouped. -/
def collectRelated (amap : List (Nat × Nat)) (cidx : Nat) (chart : Shape)
    (cur : List Shape) (alr : List Nat) : List Shape × List Nat :=
  cur.foldl
    (fun acc s =>
      if acc.2.contains s.sid then acc
      else if s.stype = SType.group then acc
      else if s.stype = SType.chart then acc
      else if s.isTitlePlaceholder then acc
      else if amap.lookup s.sid = some cidx then (acc.1 ++ [s], s.sid :: acc.2)
      else acc)
    ([chart], chart.sid :: alr)

/-- Processing of one chart in step 3: skip if already grouped,
otherwise collect its related shapes and, when there are at least two
members, perform the tree surgery (an XML failure is caught and leaves
the tree and the count unchanged). -/
def processChart (amap : List (Nat × Nat)) (st : GState)
    (cidx : Nat) (chart : Shape) : GState :=
  if st.alr.contains chart.sid then st
  else
    let rel := collectRelated amap cidx chart st.cur st.alr
    if rel.1.length > 1 then
      match group_shapes_xml st.cur rel.1 with
      | some cur' => { cur := cur', alr := rel.2, created := st.created + 1 }
      | none => { cur := st.cur, alr := rel.2, created := st.created }
    else { cur := st.cur, alr := rel.2, created := st.created }

/-- Step 3's `for chart_idx, chart_shape in enumerate(charts_found)`. -/
def processAll (amap : List (Nat × Nat)) : List Shape → Nat → GState → GState
  | [], _, st => st
  | c :: rest, k, st => processAll amap rest (k + 1) (processChart amap st k c)

/-- The `group_chart_elements`: find the slide's top-level charts, build
the association map (strict distance-0 threshold), then group each
chart with its assigned shapes.  Returns the mutated shape tree and
`groups_created`. -/
def group_chart_elements (shapes : List Shape) : List Shape × Nat :=
  let charts := shapes.filter is_chart
  if charts.isEmpty then (shapes, 0)
  else
    let amap := buildAssoc shapes
    let fin := processAll amap charts 0 { cur := shapes, alr := [], created := 0 }
    (fin.cur, fin.created)

/-! ## Proof-side definitions and concrete witness inputs -/

/-- A concrete chart shape used as the C2 witness input. -/
def witnessChart : Shape :=
  { sid := 6, stype := SType.chart, isTitlePlaceholder := false,
    isArrowName := false, rotation := 0, left := some 123,
    top := some 456, width := some 789, height := some 11,
    textFrame := none, children := [] }

/-- A shape with a defined left/width but an undefined height: the
counterexample input for C4. -/
def c4Shape : Shape :=
  { sid := 5, stype := SType.textBox, isTitlePlaceholder := false,
    isArrowName := false, rotation := 0, left := some 0, top := some 0,
    width := some 1000, height := none, textFrame := none, children := [] }

/-- Chart group used by the C7 counterexample: a chart group colliding
with one object while another object sits where the shift lands. -/
def c7Chart : Shape :=
  { sid := 1, stype := SType.group, isTitlePlaceholder := false,
    isArrowName := false, rotation := 0, left := some 100, top := some 100,
    width := some 2000000, height := some 3000000, textFrame := none,
    children := [{ sid := 10, stype := SType.chart, left := some 0,
                   top := some 0, width := some 1, height := some 1 }] }

/-- The object overlapping the chart group at detection time. -/
def c7ObjA : Shape :=
  { sid := 2, stype := SType.group, isTitlePlaceholder := false,
    isArrowName := false, rotation := 0, left := some 1000000,
    top := some 100, width := some 2000000, height := some 3000000,
    textFrame := none,
    children := [{ sid := 11, stype := SType.textBox, left := some 0,
                   top := some 0, width := some 1, height := some 1 }] }

/-- The innocent bystander: initially clear of the chart group. -/
def c7ObjB : Shape :=
  { sid := 3, stype := SType.group, isTitlePlaceholder := false,
    isArrowName := false, rotation := 0, left := some 4000000,
    top := some 100, width := some 1000000, height := some 3000000,
    textFrame := none,
    children := [{ sid := 11, stype := SType.textBox, left := some 0,
                   top := some 0, width := some 1, height := some 1 }] }

/-- Left chart group for the C8 counterexample slide. -/
def c8Left : Shape :=
  { sid := 1, stype := SType.group, isTitlePlaceholder := false,
    isArrowName := false, rotation := 0, left := some 100, top := some 100,
    width := some 2000000, height := some 3000000, textFrame := none,
    children := [{ sid := 10, stype := SType.chart, left := some 0,
                   top := some 0, width := some 1, height := some 1 }] }

/-- Right chart group: its gap to `c8Left` (99900) is below
`min_spacing` and the vertical intervals overlap. -/
def c8Right : Shape :=
  { sid := 2, stype := SType.group, isTitlePlaceholder := false,
    isArrowName := false, rotation := 0, left := some 2100000,
    top := some 100, width := some 1000000, height := some 3000000,
    textFrame := none,
    children := [{ sid := 20, stype := SType.chart, left := some 0,
                   top := some 0, width := some 1, height := some 1 }] }

/-- A paragraph arriving with the bidi marker set. -/
def c1Para : Paragraph :=
  { rtl := true, alignment := none, level := 0, lineSpacing := none,
    spaceBefore := none, spaceAfter := none,
    runs := [{ text := "x", font := freshFont }] }

/-- A text frame holding `c1Para`. -/
def c1Frame : TextFrame :=
  { paragraphs := [c1Para], wordWrap := none, autoSize := none,
    marginLeft := none, marginRight := none, marginTop := none,
    marginBottom := none }

/-- A text shape whose paragraph arrives with the bidi marker set. -/
def c1Shape : Shape :=
  { sid := 9, stype := SType.textBox, isTitlePlaceholder := false,
    isArrowName := false, rotation := 0, left := some 0, top := some 0,
    width := some 10, height := some 10, textFrame := some c1Frame,
    children := [] }

/-- The padded snapshot list of `_replace_bullets`. -/
def paddedSnapshots (tf : TextFrame) (n : Nat) : List ParaSnapshot :=
  bulletSnapshots tf ++
    List.replicate (n - (bulletSnapshots tf).length) defaultSnapshot

/-- A concrete formatted font used by the C9/C10 witnesses. -/
def c9Font : Font :=
  { bold := some true, italic := none, underline := none,
    name := some "Calibri", size := some 228600, color := some "C0C0C0" }

/-- A concrete formatted paragraph used by the C9/C10 witnesses. -/
def c9Para : Paragraph :=
  { rtl := true, alignment := none, level := 1, lineSpacing := some 100,
    spaceBefore := none, spaceAfter := none,
    runs := [{ text := "Hello", font := c9Font }] }

/-- A concrete two-paragraph text frame used by the C9/C10 witnesses. -/
def c9Frame : TextFrame :=
  { paragraphs := [c9Para, { c9Para with runs := [{ text := "World", font := c9Font }] }],
    wordWrap := none, autoSize := none, marginLeft := none,
    marginRight := none, marginTop := none, marginBottom := none }

/-- A concrete text shape used by the C9/C10 witnesses. -/
def c9Shape : Shape :=
  { sid := 7, stype := SType.textBox, isTitlePlaceholder := false,
    isArrowName := false, rotation := 0, left := some 0, top := some 0,
    width := some 10, height := some 10, textFrame := some c9Frame,
    children := [] }

/-- Concrete chart for the C5/C6 witnesses. -/
def wChart : Shape :=
  { sid := 1, stype := SType.chart, isTitlePlaceholder := false,
    isArrowName := false, rotation := 0, left := some 100, top := some 200,
    width := some 300, height := some 400, textFrame := none, children := [] }

/-- Concrete associated textbox (touching the chart's corner). -/
def wLabel : Shape :=
  { sid := 2, stype := SType.textBox, isTitlePlaceholder := false,
    isArrowName := false, rotation := 0, left := some 400, top := some 600,
    width := some 50, height := some 60, textFrame := none, children := [] }

/-- Concrete far-away shape (not associated). -/
def wFar : Shape :=
  { sid := 3, stype := SType.textBox, isTitlePlaceholder := false,
    isArrowName := false, rotation := 0, left := some 5000, top := some 5000,
    width := some 10, height := some 10, textFrame := none, children := [] }

/-- Distance comparison with `none` as infinity. -/
def opt_le : Option Int → Option Int → Prop
  | _, none => True
  | none, some _ => False
  | some a, some b => a ≤ b

/-- The step function of the nearest-chart scan. -/
def nearStep (s : Shape) (acc : Nat × Option Nat × Option Int) (c : Shape) :
    Nat × Option Nat × Option Int :=
  let d := dist_sq_to_chart s c
  if optLt d acc.2.2 then (acc.1 + 1, some acc.1, d)
  else (acc.1 + 1, acc.2.1, acc.2.2)

/-- The step function of step 3's inner collection loop. -/
def collStep (amap : List (Nat × Nat)) (cidx : Nat)
    (acc : List Shape × List Nat) (s : Shape) : List Shape × List Nat :=
  if acc.2.contains s.sid then acc
  else if s.stype = SType.group then acc
  else if s.stype = SType.chart then acc
  else if s.isTitlePlaceholder then acc
  else if amap.lookup s.sid = some cidx then (acc.1 ++ [s], s.sid :: acc.2)
  else acc

/-- Invariant carried through step 3's chart loop after the first `k`
charts have been processed. -/
def RunInv (shapes : List Shape) (k : Nat) (st : GState) : Prop :=
  ((st.cur.map Shape.sid).Nodup) ∧
  (∀ x ∈ st.cur, x.stype ≠ SType.group → x ∈ shapes) ∧
  (∀ x ∈ st.cur, eligibleShape x = true →
    ∀ j, (buildAssoc shapes).lookup x.sid = some j → k ≤ j ∧ x.sid ∉ st.alr) ∧
  (∀ y ∈ st.alr, ∃ t, t ∈ shapes ∧ t.sid = y ∧
    ((is_chart t = true ∧ ∃ j, j < k ∧ (shapes.filter is_chart)[j]? = some t) ∨
     (eligibleShape t = true ∧ ∃ j, j < k ∧
       (buildAssoc shapes).lookup y = some j)))

/-! ## Shared helper lemmas -/

theorem set_text_preserves_geometry (s : Shape) :
    (set_text_rtl_and_alignment s).left = s.left ∧
    (set_text_rtl_and_alignment s).top = s.top ∧
    (set_text_rtl_and_alignment s).width = s.width ∧
    (set_text_rtl_and_alignment s).height = s.height := by
  unfold set_text_rtl_and_alignment
  cases s.textFrame <;> simp

theorem text_pass_preserves_geometry (s : Shape) :
    let s' := if s.textFrame.isSome then set_text_rtl_and_alignment s else s
    s'.left = s.left ∧ s'.top = s.top ∧ s'.width = s.width ∧ s'.height = s.height := by
  by_cases h : s.textFrame.isSome <;>
    simp [h, set_text_preserves_geometry s]

theorem flip_slide_getElem (w : Int) (shapes : List Shape) (i : Nat) (s : Shape)
    (hs : shapes[i]? = some s) :
    (flip_slide w shapes)[i]? = some
      (let f := flip_shape_position w (get_chart_regions shapes) s
       if f.textFrame.isSome then set_text_rtl_and_alignment f else f) := by
  unfold flip_slide
  simp [List.getElem?_map, hs]

/-! ## C3: mirror is an involution on valid inputs -/

/-- C3 (confirmed).  For all valid `left`, `width`, `W`
(`0 ≤ left` and `left + width ≤ W`), the clamped mirror computation of
`_flip_shape_position` is an involution:
`mirror (mirror left width W) width W = left`. -/
theorem mirror_involution (left width W : Int)
    (h0 : 0 ≤ left) (hW : left + width ≤ W) :
    mirror (mirror left width W) width W = left := by
  simp only [mirror, min_def, max_def]
  split_ifs <;> omega

/-- Witness for C3 at `left = 1000000`, `width = 3000000`,
`W = 9144000` (the docstring example of `_flip_shape_position`). -/
theorem mirror_involution_witness :
    (0 : Int) ≤ 1000000 ∧ (1000000 : Int) + 3000000 ≤ 9144000 ∧
    mirror (mirror 1000000 3000000 9144000) 3000000 9144000 = 1000000 :=
  ⟨by decide, by decide,
    mirror_involution 1000000 3000000 9144000 (by decide) (by decide)⟩

/-! ## C2: chart positions are bit-identical across the Mirror Transform -/

theorem flip_shape_position_chart (w : Int) (regions : List Region)
    (s : Shape) (h : s.stype = SType.chart) :
    flip_shape_position w regions s = s := by
  unfold flip_shape_position
  simp [h]

/-- C2 (confirmed).  For every chart-variant shape on a slide, its
`Left` and `Top` are identical before and after the Mirror Transform
(`flip_to_rtl_layout`'s per-slide pass): charts are never repositioned. -/
theorem chart_position_unchanged (w : Int) (shapes : List Shape)
    (i : Nat) (s : Shape) (hs : shapes[i]? = some s)
    (hc : s.stype = SType.chart) :
    ∃ s', (flip_slide w shapes)[i]? = some s' ∧
      s'.left = s.left ∧ s'.top = s.top := by
  refine ⟨_, flip_slide_getElem w shapes i s hs, ?_⟩
  rw [flip_shape_position_chart w _ s hc]
  have h := text_pass_preserves_geometry s
  exact ⟨h.1, h.2.1⟩

/-- Witness for C2: a concrete chart shape keeps `Left`/`Top`. -/
theorem chart_position_unchanged_witness :
    ∃ s', (flip_slide 9144000 [witnessChart])[0]? = some s' ∧
      s'.left = some 123 ∧ s'.top = some 456 :=
  chart_position_unchanged 9144000 [witnessChart] 0 witnessChart rfl rfl

/-! ## C4: width/height across the Mirror Transform (corrected) -/

theorem flip_shape_position_dims (w : Int) (regions : List Region) (s : Shape) :
    (flip_shape_position w regions s).width = s.width ∧
    ((flip_shape_position w regions s).height = s.height ∨
      (s.height = none ∧ (flip_shape_position w regions s).height = s.width)) := by
  unfold flip_shape_position flip_shape_horizontally
  split
  · exact ⟨rfl, Or.inl rfl⟩
  split
  · exact ⟨rfl, Or.inl rfl⟩
  split
  · rename_i lv wv hL hW
    constructor
    · split <;> simp [hW]
    · cases hh : s.height with
      | none =>
          right
          refine ⟨rfl, ?_⟩
          split <;> simp [hh, hW]
      | some hv =>
          left
          split <;> simp [hh]
  · exact ⟨rfl, Or.inl rfl⟩

theorem text_pass_dims (s : Shape) :
    let s' := if s.textFrame.isSome then set_text_rtl_and_alignment s else s
    s'.width = s.width ∧ s'.height = s.height := by
  by_cases h : s.textFrame.isSome <;>
    simp [h, set_text_preserves_geometry s]

/-- C4 counterexample.  The claim "after the Mirror Transform,
every shape's Width and Height equal their pre-transform values" fails
on a mirrored shape whose `height` is undefined (`None`): the source
explicitly writes `shape.height = shape_height if shape_height is not
None else shape_width`, so the height becomes the width. -/
theorem c4_height_counterexample :
    c4Shape.height = none ∧
    (flip_slide 9144000 [c4Shape]).map Shape.height = [some 1000] := by
  constructor
  · rfl
  · rfl

/-- C4 as amended (the claim holds except for the undefined-height
fallback): after the Mirror Transform runs on a slide, every shape's
`Width` equals its pre-transform value, and its `Height` equals its
pre-transform value unless the height was undefined, in which case it
is set to the shape's width. -/
theorem mirror_preserves_dims (w : Int) (shapes : List Shape)
    (i : Nat) (s : Shape) (hs : shapes[i]? = some s) :
    ∃ s', (flip_slide w shapes)[i]? = some s' ∧
      s'.width = s.width ∧
      (s'.height = s.height ∨ (s.height = none ∧ s'.height = s.width)) := by
  refine ⟨_, flip_slide_getElem w shapes i s hs, ?_⟩
  have hflip := flip_shape_position_dims w (get_chart_regions shapes) s
  have htext := text_pass_dims (flip_shape_position w (get_chart_regions shapes) s)
  refine ⟨htext.1.trans hflip.1, ?_⟩
  rcases hflip.2 with h | ⟨h1, h2⟩
  · exact Or.inl (htext.2.trans h)
  · exact Or.inr ⟨h1, htext.2.trans h2⟩

/-- Witness for the amended C4 on the concrete undefined-height shape. -/
theorem mirror_preserves_dims_witness :
    ∃ s', (flip_slide 9144000 [c4Shape])[0]? = some s' ∧
      s'.width = c4Shape.width ∧
      (s'.height = c4Shape.height ∨
        (c4Shape.height = none ∧ s'.height = c4Shape.width)) :=
  mirror_preserves_dims 9144000 [c4Shape] 0 c4Shape rfl

/-! ## C1: the bidi-reversal marker is always cleared, never set -/

theorem set_text_clears_rtl (s : Shape) (tf : TextFrame)
    (h : (set_text_rtl_and_alignment s).textFrame = some tf) :
    ∀ p ∈ tf.paragraphs, p.rtl = false := by
  intro p hp
  unfold set_text_rtl_and_alignment at h
  cases hs : s.textFrame with
  | none => simp [hs] at h
  | some tf0 =>
      simp [hs] at h
      subst h
      simp at hp
      obtain ⟨q, _, hq⟩ := hp
      subst hq
      rfl

theorem applyParaFmt_rtl (pf : ParaFmt) (p : Paragraph) :
    (applyParaFmt pf p).rtl = p.rtl := by
  obtain ⟨ls, sb, sa⟩ := pf
  cases ls <;> cases sb <;> cases sa <;> rfl

theorem buildParagraph_rtl (t : String) (snap : ParaSnapshot) :
    (buildParagraph t snap).rtl = false := by
  obtain ⟨lv, fmtq, pfq⟩ := snap
  cases pfq with
  | none => rfl
  | some pf => exact applyParaFmt_rtl pf _

/-- C1 (confirmed).  Every paragraph the engine writes or rewrites
carries no bidi-reversal marker: (1) the RTL-conversion text pass
(`flip_to_rtl_layout` → `_set_text_rtl_and_alignment` →
`_remove_rtl_from_paragraph`) removes the `rtl` attribute from every
paragraph of every text shape; (2) `_replace_single_text` and
(3) `_replace_bullets` build every output paragraph without the `rtl`
attribute (and the functions that would set it are never called). -/
theorem bidi_marker_always_cleared :
    (∀ (w : Int) (shapes : List Shape) (s' : Shape),
      s' ∈ flip_slide w shapes → ∀ tf, s'.textFrame = some tf →
        ∀ p ∈ tf.paragraphs, p.rtl = false) ∧
    (∀ (s : Shape) (t : String) (tf : TextFrame),
      (replace_single_text s t).textFrame = some tf →
        ∀ p ∈ tf.paragraphs, p.rtl = false) ∧
    (∀ (s : Shape) (ts : List String) (tf : TextFrame),
      (replace_bullets s ts).textFrame = some tf →
        ∀ p ∈ tf.paragraphs, p.rtl = false) := by
  refine ⟨?_, ?_, ?_⟩
  · intro w shapes s' hmem tf htf p hp
    unfold flip_slide at hmem
    simp at hmem
    obtain ⟨s0, _, hs0⟩ := hmem
    by_cases hsome : (flip_shape_position w (get_chart_regions shapes) s0).textFrame.isSome
    · rw [if_pos hsome] at hs0
      subst hs0
      exact set_text_clears_rtl _ tf htf p hp
    · rw [if_neg hsome] at hs0
      subst hs0
      rw [htf] at hsome
      simp at hsome
  · intro s t tf htf p hp
    unfold replace_single_text at htf
    cases hs : s.textFrame with
    | none => simp [hs] at htf
    | some tf0 =>
        simp [hs] at htf
        subst htf
        simp [clearedFrame] at hp
        subst hp
        exact buildParagraph_rtl _ _
  · intro s ts tf htf p hp
    unfold replace_bullets at htf
    cases hs : s.textFrame with
    | none => simp [hs] at htf
    | some tf0 =>
        simp [hs] at htf
        subst htf
        simp [clearedFrame] at hp
        obtain ⟨t0, sn, hq⟩ := hp
        rw [← hq.2]
        exact buildParagraph_rtl _ _

/-! ## C7: the collision resolver and new overlaps (corrected) -/

/-- C7 counterexample.  The claim "the Collision Resolver never
produces a configuration in which a previously non-overlapping pair
overlaps" is false: fixing the chart-vs-A collision shifts the chart
group right to `A.right + min_spacing = 3182880`, where it now
overlaps group B, which it did not overlap before the resolver ran. -/
theorem c7_new_overlap_counterexample :
    infoOverlap (mkGroupInfo c7Chart) (mkGroupInfo c7ObjB) = false ∧
    (fix_chart_collisions_slide [c7Chart, c7ObjA, c7ObjB]).map Shape.left =
      [some 3182880, some 1000000, some 4000000] ∧
    infoOverlap (mkGroupInfo { c7Chart with left := some 3182880 })
      (mkGroupInfo c7ObjB) = true := by
  refine ⟨by decide, by decide, by decide⟩

/-- C7 as amended.  A chart shift always clears the chart of the
*specific object of the collision being fixed* — after the shift the
chart's interval is separated from that object's interval by at least
`min_spacing` on one side (option 2 is always available, so the
flush-right fallback is unreachable) — but the resolver may introduce
new overlaps with other shapes, as the counterexample shows.  The
post-mirror collision stage consists of exactly this chart-vs-object
pass. -/
theorem c7_shift_clears_collided_object :
    (∀ shapes, collision_stage shapes = fix_chart_collisions_slide shapes) ∧
    (∀ chartLeft chartWidth otherLeft otherRight : Int,
      shift_chart_new_left chartLeft chartWidth otherLeft otherRight
          + chartWidth ≤ otherLeft - minSpacing ∨
      shift_chart_new_left chartLeft chartWidth otherLeft otherRight
          ≥ otherRight + minSpacing) := by
  refine ⟨fun _ => rfl, ?_⟩
  intro cl cw ol orr
  simp only [shift_chart_new_left]
  split_ifs with h1 h2
  · left; omega
  · right; omega
  · right; omega

/-! ## C8: the group-vs-group sub-pass (corrected) -/

/-- C8 counterexample.  The claim says the post-mirror collision
stage applies the group-vs-group sub-pass, shifting the right-hand
group of this too-close, vertically-overlapping pair right by the
shortfall (to `2100000 + (182880 - 99900) = 2182980`).  The stage as
wired in `translate_all_slides` (Step 5.5 runs only
`fix_chart_collisions_option_c`; `_adjust_overlapping_groups` has no
caller) leaves both groups unchanged. -/
theorem c8_subpass_not_applied_counterexample :
    collision_stage [c8Left, c8Right] = [c8Left, c8Right] ∧
    (adjust_overlapping_groups 9144000 [c8Left, c8Right]).map Shape.left =
      [some 100, some 2182980] ∧
    some (2182980 : Int) ≠ some (2100000 : Int) := by
  refine ⟨by decide, by decide, by decide⟩

/-- C8 as amended.  The group-vs-group sub-pass exists with exactly
the described per-pair behaviour, but it is dead code: it is never
invoked by the pipeline, whose post-mirror collision stage is only the
chart-vs-object pass.  For a sorted adjacent pair `g1, g2` the
sub-pass behaves as specified: no shift unless the horizontal gap is
below `min_spacing` *and* the vertical intervals overlap (purely
vertically-separated pairs are never shifted); on collision the
right-hand group moves right by the shortfall when that stays within
the slide width; otherwise the left-hand group moves left by the
shortfall when that stays non-negative; otherwise the pair is left
unresolved. -/
theorem c8_adjacent_pair_behaviour (w : Int) (g1 g2 : Shape)
    (hsorted : tv g1.left ≤ tv g2.left) :
    (∀ shapes, collision_stage shapes = fix_chart_collisions_slide shapes) ∧
    (let gap := tv g2.left - (tv g1.left + tv g1.width)
     let shortfall := minSpacing - gap
     let collision := gap < minSpacing ∧
       ¬(tv g1.top + tv g1.height ≤ tv g2.top ∨
         tv g2.top + tv g2.height ≤ tv g1.top)
     ((¬collision → adjust_overlapping_groups w [g1, g2] = [g1, g2]) ∧
      (collision → tv g2.left + shortfall + tv g2.width ≤ w →
        adjust_overlapping_groups w [g1, g2] =
          [g1, { g2 with left := some (tv g2.left + shortfall) }]) ∧
      (collision → ¬(tv g2.left + shortfall + tv g2.width ≤ w) →
        0 ≤ tv g1.left - shortfall →
        adjust_overlapping_groups w [g1, g2] =
          [{ g1 with left := some (tv g1.left - shortfall) }, g2]) ∧
      (collision → ¬(tv g2.left + shortfall + tv g2.width ≤ w) →
        ¬(0 ≤ tv g1.left - shortfall) →
        adjust_overlapping_groups w [g1, g2] = [g1, g2]))) := by
  have hred : adjust_overlapping_groups w [g1, g2] =
      adjust_loop_from w g1 [g2] := by
    simp [adjust_overlapping_groups, sort_groups_by_left, insert_by_left,
      if_pos hsorted, adjust_loop]
  refine ⟨fun _ => rfl, ?_, ?_, ?_, ?_⟩
  · intro hnc
    rw [hred]
    simp only [adjust_loop_from, adjust_pair]
    rw [if_neg]
    intro h
    exact hnc ⟨by omega, fun hor => h.2 (by omega)⟩
  · intro hc hfit
    rw [hred]
    simp only [adjust_loop_from, adjust_pair]
    rw [if_pos ⟨by omega, fun hor => hc.2 (by omega)⟩, if_pos (by omega)]
  · intro hc hnofit hroom
    rw [hred]
    simp only [adjust_loop_from, adjust_pair]
    rw [if_pos ⟨by omega, fun hor => hc.2 (by omega)⟩, if_neg (by omega),
      if_pos (by omega)]
  · intro hc hnofit hnoroom
    rw [hred]
    simp only [adjust_loop_from, adjust_pair]
    rw [if_pos ⟨by omega, fun hor => hc.2 (by omega)⟩, if_neg (by omega),
      if_neg (by omega)]

/-- Witness for the amended C8: the colliding fits-right case on the
concrete pair, with hypotheses discharged at `w = 9144000`. -/
theorem c8_adjacent_pair_behaviour_witness :
    adjust_overlapping_groups 9144000 [c8Left, c8Right] =
      [c8Left, { c8Right with left := some (tv c8Right.left +
        (minSpacing - (tv c8Right.left - (tv c8Left.left + tv c8Left.width)))) }] :=
  ((c8_adjacent_pair_behaviour 9144000 c8Left c8Right (by decide)).2).2.1
    (by constructor <;> decide) (by decide)

/-! ## List helper lemmas (folded min/max, sid-filtered removal) -/

theorem foldl_min_le_init {A : Type} [LinearOrder A] (l : List A) (a : A) :
    l.foldl min a ≤ a := by
  induction l generalizing a with
  | nil => exact le_refl a
  | cons x t ih => exact le_trans (ih (min a x)) (min_le_left a x)

theorem foldl_min_le_mem {A : Type} [LinearOrder A] (l : List A) (a x : A)
    (hx : x ∈ l) : l.foldl min a ≤ x := by
  induction l generalizing a with
  | nil => cases hx
  | cons y t ih =>
      rcases List.mem_cons.1 hx with h | h
      · subst h
        exact le_trans (foldl_min_le_init t (min a x)) (min_le_right a x)
      · exact ih (min a y) h

theorem foldl_min_mem {A : Type} [LinearOrder A] (l : List A) (a : A) :
    l.foldl min a = a ∨ l.foldl min a ∈ l := by
  induction l generalizing a with
  | nil => exact Or.inl rfl
  | cons x t ih =>
      rw [List.foldl_cons]
      rcases ih (min a x) with h | h
      · rw [h]
        rcases min_choice a x with hm | hm
        · exact Or.inl hm
        · rw [hm]
          exact Or.inr (List.mem_cons_self x t)
      · exact Or.inr (List.mem_cons_of_mem x h)

theorem foldl_max_ge_init {A : Type} [LinearOrder A] (l : List A) (a : A) :
    a ≤ l.foldl max a := by
  induction l generalizing a with
  | nil => exact le_refl a
  | cons x t ih => exact le_trans (le_max_left a x) (ih (max a x))

theorem foldl_max_ge_mem {A : Type} [LinearOrder A] (l : List A) (a x : A)
    (hx : x ∈ l) : x ≤ l.foldl max a := by
  induction l generalizing a with
  | nil => cases hx
  | cons y t ih =>
      rcases List.mem_cons.1 hx with h | h
      · subst h
        exact le_trans (le_max_right a x) (foldl_max_ge_init t (max a x))
      · exact ih (max a y) h

theorem foldl_max_mem {A : Type} [LinearOrder A] (l : List A) (a : A) :
    l.foldl max a = a ∨ l.foldl max a ∈ l := by
  induction l generalizing a with
  | nil => exact Or.inl rfl
  | cons x t ih =>
      rw [List.foldl_cons]
      rcases ih (max a x) with h | h
      · rw [h]
        rcases max_choice a x with hm | hm
        · exact Or.inl hm
        · rw [hm]
          exact Or.inr (List.mem_cons_self x t)
      · exact Or.inr (List.mem_cons_of_mem x h)

theorem listMin_le (l : List Int) (x : Int) (hx : x ∈ l) : listMin l ≤ x := by
  cases l with
  | nil => cases hx
  | cons h t =>
      rcases List.mem_cons.1 hx with he | he
      · subst he
        exact foldl_min_le_init t x
      · exact foldl_min_le_mem t h x he

theorem listMin_mem (l : List Int) (h : l ≠ []) : listMin l ∈ l := by
  cases l with
  | nil => exact absurd rfl h
  | cons a t =>
      show t.foldl min a ∈ a :: t
      rcases foldl_min_mem t a with he | he
      · rw [he]
        exact List.mem_cons_self a t
      · exact List.mem_cons_of_mem a he

theorem listMax_ge (l : List Int) (x : Int) (hx : x ∈ l) : x ≤ listMax l := by
  cases l with
  | nil => cases hx
  | cons h t =>
      rcases List.mem_cons.1 hx with he | he
      · subst he
        exact foldl_max_ge_init t x
      · exact foldl_max_ge_mem t h x he

theorem listMax_mem (l : List Int) (h : l ≠ []) : listMax l ∈ l := by
  cases l with
  | nil => exact absurd rfl h
  | cons a t =>
      show t.foldl max a ∈ a :: t
      rcases foldl_max_mem t a with he | he
      · rw [he]
        exact List.mem_cons_self a t
      · exact List.mem_cons_of_mem a he

theorem sid_lt_freshSid (slide : List Shape) (s : Shape) (hs : s ∈ slide) :
    s.sid < freshSid slide := by
  have hb : s.sid ≤ slide.foldl (fun a t => max a t.sid) 0 := by
    have hmap : s.sid ∈ slide.map Shape.sid := List.mem_map_of_mem Shape.sid hs
    have hf : slide.foldl (fun a t => max a t.sid) 0 =
        (slide.map Shape.sid).foldl max 0 := by
      rw [List.foldl_map]
    rw [hf]
    exact foldl_max_ge_mem _ 0 s.sid hmap
  unfold freshSid
  omega

/-- Removing, by id, a duplicate-free family of shapes that all occur
in a duplicate-free slide shortens the slide by exactly the family's
size. -/
theorem filter_not_contains_length :
    ∀ (slide : List Shape) (msids : List Nat),
      (slide.map Shape.sid).Nodup → msids.Nodup →
      (∀ x ∈ msids, x ∈ slide.map Shape.sid) →
      (slide.filter fun s => ¬msids.contains s.sid).length + msids.length
        = slide.length := by
  intro slide
  induction slide with
  | nil =>
      intro msids _ _ hsub
      cases msids with
      | nil => rfl
      | cons x xs => exact absurd (hsub x (List.mem_cons_self x xs)) (by simp)
  | cons s rest ih =>
      intro msids hnodS hnodM hsub
      have hnodR : (rest.map Shape.sid).Nodup := (List.nodup_cons.1 hnodS).2
      have hsid : s.sid ∉ rest.map Shape.sid := (List.nodup_cons.1 hnodS).1
      by_cases hs : s.sid ∈ msids
      · have hlen : (msids.erase s.sid).length + 1 = msids.length := by
          rw [List.length_erase_of_mem hs]
          have := List.length_pos_of_mem hs
          omega
        have hcongr : (rest.filter fun r => ¬msids.contains r.sid) =
            (rest.filter fun r => ¬(msids.erase s.sid).contains r.sid) := by
          apply List.filter_congr
          intro r hr
          have hne : r.sid ≠ s.sid := by
            intro he
            exact hsid (he ▸ List.mem_map_of_mem Shape.sid hr)
          simp [List.Nodup.mem_erase_iff hnodM, hne]
        have hsub' : ∀ x ∈ msids.erase s.sid, x ∈ rest.map Shape.sid := by
          intro x hx
          have hx' := (List.Nodup.mem_erase_iff hnodM).1 hx
          have hmem2 := hsub x hx'.2
          simp only [List.map_cons, List.mem_cons] at hmem2
          rcases hmem2 with h | h
          · exact absurd h hx'.1
          · exact h
        have hih := ih (msids.erase s.sid) hnodR (hnodM.erase s.sid) hsub'
        rw [← hcongr] at hih
        have hkeep : (List.filter (fun r => ¬msids.contains r.sid) (s :: rest)) =
            List.filter (fun r => ¬msids.contains r.sid) rest :=
          List.filter_cons_of_neg (by simp [hs])
        rw [hkeep]
        simp only [List.length_cons]
        omega
      · have hsub' : ∀ x ∈ msids, x ∈ rest.map Shape.sid := by
          intro x hx
          have hmem2 := hsub x hx
          simp only [List.map_cons, List.mem_cons] at hmem2
          rcases hmem2 with h | h
          · subst h
            exact absurd hx hs
          · exact h
        have hih := ih msids hnodR hnodM hsub'
        have hkeep : (List.filter (fun r => ¬msids.contains r.sid) (s :: rest)) =
            s :: List.filter (fun r => ¬msids.contains r.sid) rest :=
          List.filter_cons_of_pos (by simp [hs])
        rw [hkeep]
        simp only [List.length_cons]
        omega

/-- Witness for C1: the mirror pass on a one-shape slide whose
paragraph arrives with the marker set clears it, and the bullet
replacement emits marker-free paragraphs. -/
theorem bidi_marker_always_cleared_witness :
    (∀ s', s' ∈ flip_slide 9144000 [c1Shape] → ∀ tf, s'.textFrame = some tf →
      ∀ p ∈ tf.paragraphs, p.rtl = false) ∧
    ∃ tf, (replace_bullets c1Shape ["bullet"]).textFrame = some tf ∧
      ∀ p ∈ tf.paragraphs, p.rtl = false := by
  refine ⟨fun s' hm => bidi_marker_always_cleared.1 9144000 [c1Shape] s' hm, ?_⟩
  rcases htf : (replace_bullets c1Shape ["bullet"]).textFrame with _ | tf
  · exact absurd htf (by decide)
  · exact ⟨tf, rfl, bidi_marker_always_cleared.2.2 c1Shape ["bullet"] tf htf⟩

/-! ## C9/C10 helper lemmas -/

theorem zip_getElem? {α β : Type} :
    ∀ (l1 : List α) (l2 : List β) (i : Nat),
      (l1.zip l2)[i]? = l1[i]?.bind (fun a => l2[i]?.map (fun b => (a, b)))
  | [], _, _ => by simp
  | _ :: _, [], _ => by simp
  | a :: t1, b :: t2, 0 => by simp
  | a :: t1, b :: t2, i + 1 => by
      simp only [List.zip_cons_cons, List.getElem?_cons_succ]
      exact zip_getElem? t1 t2 i

theorem applyParaFmt_preserves (pf : ParaFmt) (p : Paragraph) :
    (applyParaFmt pf p).alignment = p.alignment ∧
    (applyParaFmt pf p).level = p.level ∧
    (applyParaFmt pf p).runs = p.runs := by
  obtain ⟨ls, sb, sa⟩ := pf
  cases ls <;> cases sb <;> cases sa <;> exact ⟨rfl, rfl, rfl⟩

theorem buildParagraph_spec (t : String) (snap : ParaSnapshot) :
    (buildParagraph t snap).alignment = some Align.right ∧
    (buildParagraph t snap).level = snap.level ∧
    (buildParagraph t snap).runs = [{ text := t, font :=
      match snap.formatting with
      | some fmt => applyRunFmt fmt freshFont
      | none => freshFont }] := by
  obtain ⟨lv, fq, pq⟩ := snap
  cases pq with
  | none => exact ⟨rfl, rfl, rfl⟩
  | some pf =>
      refine ⟨(applyParaFmt_preserves pf _).1, ?_, (applyParaFmt_preserves pf _).2.2⟩
      exact (applyParaFmt_preserves pf _).2.1

theorem paddedSnapshots_length (tf : TextFrame) (n : Nat) :
    (paddedSnapshots tf n).length = max (bulletSnapshots tf).length n := by
  simp [paddedSnapshots]
  omega

theorem replace_bullets_frame (s : Shape) (tf : TextFrame) (ts : List String)
    (hs : s.textFrame = some tf) :
    (replace_bullets s ts).textFrame = some (clearedFrame
      ((ts.zip (paddedSnapshots tf ts.length)).map
        (fun tp => buildParagraph tp.1 tp.2))) := by
  unfold replace_bullets paddedSnapshots
  rw [hs]

/-! ## C9: paragraph count equals the replacement count; padding is total -/

/-- C9 (confirmed).  For a shape whose text frame has any number of
original paragraphs, replacing with `K'` strings yields exactly `K'`
output paragraphs, one single-run paragraph per replacement string in
order; entries beyond the snapshotted paragraphs use the padded
default (level 0, no formatting restored), every index lookup is
guarded, and the operation is total (the source additionally wraps the
whole body in try/except). -/
theorem bullet_count_matches_replacements (s : Shape) (tf : TextFrame)
    (ts : List String) (hs : s.textFrame = some tf) :
    ∃ tf', (replace_bullets s ts).textFrame = some tf' ∧
      tf'.paragraphs.length = ts.length ∧
      (∀ (i : Nat) (pi : Paragraph), tf'.paragraphs[i]? = some pi →
        ∃ t, ts[i]? = some t ∧ pi.runs.map TRun.text = [t]) ∧
      (∀ (i : Nat) (pi : Paragraph), tf'.paragraphs[i]? = some pi →
        (bulletSnapshots tf).length ≤ i →
        pi.level = 0 ∧ pi.runs.map TRun.font = [freshFont]) := by
  refine ⟨_, replace_bullets_frame s tf ts hs, ?_, ?_, ?_⟩
  · simp [clearedFrame, paddedSnapshots_length]
  · intro i pi hpi
    simp only [clearedFrame, List.getElem?_map] at hpi
    rw [zip_getElem? ts (paddedSnapshots tf ts.length) i] at hpi
    cases ht : ts[i]? with
    | none => rw [ht] at hpi; simp at hpi
    | some t =>
        rw [ht] at hpi
        cases hq : (paddedSnapshots tf ts.length)[i]? with
        | none => rw [hq] at hpi; simp at hpi
        | some sn =>
            rw [hq] at hpi
            simp at hpi
            refine ⟨t, rfl, ?_⟩
            rw [← hpi, (buildParagraph_spec t sn).2.2]
            rfl
  · intro i pi hpi hge
    simp only [clearedFrame, List.getElem?_map] at hpi
    rw [zip_getElem? ts (paddedSnapshots tf ts.length) i] at hpi
    cases ht : ts[i]? with
    | none => rw [ht] at hpi; simp at hpi
    | some t =>
        rw [ht] at hpi
        have hlt : i < ts.length := by
          by_contra hcon
          rw [List.getElem?_eq_none (by omega)] at ht
          exact Option.noConfusion ht
        have hq : (paddedSnapshots tf ts.length)[i]? = some defaultSnapshot := by
          unfold paddedSnapshots
          rw [List.getElem?_append_right hge]
          rw [List.getElem?_replicate]
          rw [if_pos (by omega)]
        rw [hq] at hpi
        simp at hpi
        rw [← hpi, (buildParagraph_spec t defaultSnapshot).2.2]
        refine ⟨?_, rfl⟩
        have := (buildParagraph_spec t defaultSnapshot).2.1
        rw [← hpi] at *
        simpa [defaultSnapshot] using this

/-- Witness for C9 on a concrete two-paragraph shape replaced with
three strings (one padded entry). -/
theorem bullet_count_matches_replacements_witness :
    ∃ tf', (replace_bullets c9Shape ["a", "b", "c"]).textFrame = some tf' ∧
      tf'.paragraphs.length = 3 := by
  obtain ⟨tf', h1, h2, _, _⟩ :=
    bullet_count_matches_replacements c9Shape c9Frame ["a", "b", "c"] rfl
  exact ⟨tf', h1, h2⟩

/-! ## C10: formatting normalization of replaced runs -/

theorem applyRunFmt_fields (fmt : RunFmt) (fn c : String)
    (hb : fmt.fBold = some true) (hn : fmt.fontName = some fn)
    (hfn : fn ≠ "") (hsz : fmt.fontSize = some 228600)
    (hc : fmt.color = some c) (hg : pyUpper c ∈ grayColors) :
    (applyRunFmt fmt freshFont).bold = some true ∧
    (applyRunFmt fmt freshFont).name = some "Arial" ∧
    (applyRunFmt fmt freshFont).size = some 205740 ∧
    (applyRunFmt fmt freshFont).color = some "000000" := by
  obtain ⟨b, it, un, nm, sz, co⟩ := fmt
  simp only at hb hn hsz hc
  subst hb hn hsz hc
  cases it <;> cases un <;>
    simp [applyRunFmt, freshFont, normalizeFontName, scaleFontSize,
      convertColor, hfn, hg]

/-- C10 (confirmed).  For every replaced bullet whose snapshotted
run formatting has `bold=True`, a (nonempty) original font family, an
18 pt size (`228600` EMU) and a color from the fixed gray palette
(e.g. `C0C0C0`), the output paragraph's single run is `bold=True`, its
font family is the fixed Arabic-capable `Arial` regardless of the
original family, its size is exactly 90 % of the original
(`205740` EMU = 16.2 pt), its color is pure black (`000000`), and the
paragraph alignment is right. -/
theorem replaced_run_formatting (s : Shape) (tf : TextFrame)
    (ts : List String) (i : Nat) (snap : ParaSnapshot) (fmt : RunFmt)
    (fn c : String)
    (hs : s.textFrame = some tf)
    (hlt : i < ts.length)
    (hsnap : (bulletSnapshots tf)[i]? = some snap)
    (hfmt : snap.formatting = some fmt)
    (hbold : fmt.fBold = some true)
    (hname : fmt.fontName = some fn) (hfn : fn ≠ "")
    (hsize : fmt.fontSize = some 228600)
    (hcolor : fmt.color = some c) (hgray : pyUpper c ∈ grayColors) :
    ∃ tf' pi, (replace_bullets s ts).textFrame = some tf' ∧
      tf'.paragraphs[i]? = some pi ∧
      pi.alignment = some Align.right ∧
      pi.runs.map (fun r => r.font.bold) = [some true] ∧
      pi.runs.map (fun r => r.font.name) = [some "Arial"] ∧
      pi.runs.map (fun r => r.font.size) = [some 205740] ∧
      pi.runs.map (fun r => r.font.color) = [some "000000"] := by
  have hpad : (paddedSnapshots tf ts.length)[i]? = some snap := by
    unfold paddedSnapshots
    have hi : i < (bulletSnapshots tf).length :=
      (List.getElem?_eq_some_iff.1 hsnap).1
    rw [List.getElem?_append, if_pos hi]
    exact hsnap
  rcases ht : ts[i]? with _ | t
  · rw [List.getElem?_eq_none_iff] at ht
    omega
  · refine ⟨_, buildParagraph t snap, replace_bullets_frame s tf ts hs, ?_, ?_⟩
    · simp only [clearedFrame, List.getElem?_map]
      rw [zip_getElem? ts (paddedSnapshots tf ts.length) i, ht, hpad]
      rfl
    · have hspec := buildParagraph_spec t snap
      have hfields := applyRunFmt_fields fmt fn c hbold hname hfn hsize hcolor hgray
      refine ⟨hspec.1, ?_, ?_, ?_, ?_⟩ <;>
        rw [hspec.2.2] <;> simp [hfmt, hfields.1, hfields.2.1, hfields.2.2.1,
          hfields.2.2.2]

/-- Witness for C10: the end-to-end scenario (Calibri, 18 pt, gray
`C0C0C0`, bold) replaced with two bullets; bullet 0 checked. -/
theorem replaced_run_formatting_witness :
    ∃ tf' pi, (replace_bullets c9Shape ["bullet1", "bullet2"]).textFrame = some tf' ∧
      tf'.paragraphs[0]? = some pi ∧
      pi.alignment = some Align.right ∧
      pi.runs.map (fun r => r.font.bold) = [some true] ∧
      pi.runs.map (fun r => r.font.name) = [some "Arial"] ∧
      pi.runs.map (fun r => r.font.size) = [some 205740] ∧
      pi.runs.map (fun r => r.font.color) = [some "000000"] :=
  replaced_run_formatting c9Shape c9Frame ["bullet1", "bullet2"] 0
    { level := 1,
      formatting := some (snapshotRunFmt { text := "Hello", font := c9Font }),
      paraFormatting := some (snapshotParaFmt c9Para) }
    (snapshotRunFmt { text := "Hello", font := c9Font })
    "Calibri" "C0C0C0" rfl (by simp) (by decide) rfl rfl rfl
    (by simp) rfl rfl (by decide)

/-! ## C5: the Group Synthesizer's tree surgery -/

/-- C5 (confirmed).  Running `_group_shapes_xml` on a chart with
`N ≥ 1` associated shapes (all with defined geometry, distinct ids,
present on the slide): the tree surgery succeeds; the slide's
top-level shape count loses the `N+1` members and gains exactly 1 (the
new group), a net decrease of `N`; no member remains at top level; the
appended group is a Group shape whose absolute bounding box is exactly
the union of the members' original boxes (it contains every member box
and attains each of the four extremes); and each member is re-parented
in order with its stored position rewritten to
`original absolute - boundingBoxOrigin` (absolutes captured before any
mutation) while its Width/Height are untouched. -/
theorem group_synthesizer_spec (slide : List Shape) (chart : Shape)
    (assoc : List Shape)
    (hN : assoc ≠ [])
    (hmem : ∀ m ∈ chart :: assoc, m ∈ slide)
    (hnodS : (slide.map Shape.sid).Nodup)
    (hnodM : ((chart :: assoc).map Shape.sid).Nodup)
    (hgeo : ∀ m ∈ chart :: assoc, m.left.isSome ∧ m.top.isSome ∧
      m.width.isSome ∧ m.height.isSome) :
    ∃ out, group_shapes_xml slide (chart :: assoc) = some out ∧
      out.length + (chart :: assoc).length = slide.length + 1 ∧
      (∀ m ∈ chart :: assoc, m ∉ out) ∧
      ∃ g, out.getLast? = some g ∧ g.stype = SType.group ∧
        (∀ m ∈ chart :: assoc,
          tv g.left ≤ tv m.left ∧
          tv m.left + tv m.width ≤ tv g.left + tv g.width ∧
          tv g.top ≤ tv m.top ∧
          tv m.top + tv m.height ≤ tv g.top + tv g.height) ∧
        (∃ m ∈ chart :: assoc, tv m.left = tv g.left) ∧
        (∃ m ∈ chart :: assoc, tv m.left + tv m.width = tv g.left + tv g.width) ∧
        (∃ m ∈ chart :: assoc, tv m.top = tv g.top) ∧
        (∃ m ∈ chart :: assoc, tv m.top + tv m.height = tv g.top + tv g.height) ∧
        g.children.length = (chart :: assoc).length ∧
        (∀ (i : Nat) (m : Shape), (chart :: assoc)[i]? = some m →
          ∃ ch, g.children[i]? = some ch ∧
            ch.left = some (tv m.left - tv g.left) ∧
            ch.top = some (tv m.top - tv g.top) ∧
            ch.width = m.width ∧ ch.height = m.height) := by
  have hgL : (chart :: assoc).filter (fun m => m.left.isSome) = chart :: assoc :=
    List.filter_eq_self.2 (fun m hm => by simpa using (hgeo m hm).1)
  have hgT : (chart :: assoc).filter (fun m => m.top.isSome) = chart :: assoc :=
    List.filter_eq_self.2 (fun m hm => by simpa using (hgeo m hm).2.1)
  have hgLW : (chart :: assoc).filter
      (fun m => m.left.isSome ∧ m.width.isSome) = chart :: assoc :=
    List.filter_eq_self.2 (fun m hm => by
      simp [(hgeo m hm).1, (hgeo m hm).2.2.1])
  have hlen1 : 0 < assoc.length := List.length_pos.2 hN
  have hguard : ¬((chart :: assoc).length < 2) := by
    simp only [List.length_cons]
    omega
  have hout : group_shapes_xml slide (chart :: assoc) =
      some ((slide.filter fun s =>
          ¬((chart :: assoc).map Shape.sid).contains s.sid)
        ++ [groupOf slide (chart :: assoc)]) := by
    unfold group_shapes_xml
    rw [if_neg hguard, if_neg]
    rw [hgL, hgT, hgLW]
    simp
  have hsub : ∀ x ∈ (chart :: assoc).map Shape.sid, x ∈ slide.map Shape.sid := by
    intro x hx
    obtain ⟨m, hm, hxe⟩ := List.mem_map.1 hx
    exact hxe ▸ List.mem_map_of_mem Shape.sid (hmem m hm)
  have hcount := filter_not_contains_length slide ((chart :: assoc).map Shape.sid)
    hnodS hnodM hsub
  refine ⟨_, hout, ?_, ?_, ?_⟩
  · simp only [List.length_append, List.length_singleton]
    simp only [List.length_map] at hcount
    omega
  · intro m hm hcon
    rcases List.mem_append.1 hcon with hf | hg
    · have hpred := (List.mem_filter.1 hf).2
      simp at hpred
      rcases List.mem_cons.1 hm with he | he
      · exact hpred.1 (by rw [he])
      · exact hpred.2 m he rfl
    · have hge : m = groupOf slide (chart :: assoc) := by simpa using hg
      have hlt := sid_lt_freshSid slide m (hmem m hm)
      rw [hge] at hlt
      exact absurd rfl (Nat.ne_of_lt hlt)
  · refine ⟨groupOf slide (chart :: assoc), ?_, rfl, ?_, ?_, ?_, ?_, ?_, ?_, ?_⟩
    · exact List.getLast?_concat _
    · intro m hm
      refine ⟨?_, ?_, ?_, ?_⟩
      · show bboxMinLeft (chart :: assoc) ≤ tv m.left
        unfold bboxMinLeft
        rw [hgL]
        exact listMin_le _ _ (List.mem_map_of_mem (fun m => tv m.left) hm)
      · show tv m.left + tv m.width ≤
          bboxMinLeft (chart :: assoc) +
            (bboxMaxRight (chart :: assoc) - bboxMinLeft (chart :: assoc))
        have : tv m.left + tv m.width ≤ bboxMaxRight (chart :: assoc) := by
          unfold bboxMaxRight
          rw [hgLW]
          exact listMax_ge _ _
            (List.mem_map_of_mem (fun m => tv m.left + tv m.width) hm)
        omega
      · show bboxMinTop (chart :: assoc) ≤ tv m.top
        unfold bboxMinTop
        rw [hgT]
        exact listMin_le _ _ (List.mem_map_of_mem (fun m => tv m.top) hm)
      · show tv m.top + tv m.height ≤
          bboxMinTop (chart :: assoc) +
            (bboxMaxBottom (chart :: assoc) - bboxMinTop (chart :: assoc))
        have : tv m.top + tv m.height ≤ bboxMaxBottom (chart :: assoc) := by
          unfold bboxMaxBottom
          exact listMax_ge _ _
            (List.mem_map_of_mem (fun m => tv m.top + tv m.height) hm)
        omega
    · have hne : (chart :: assoc).map (fun m => tv m.left) ≠ [] := by simp
      have hmm := listMin_mem _ hne
      obtain ⟨m, hm, he⟩ := List.mem_map.1 hmm
      refine ⟨m, hm, ?_⟩
      show tv m.left = bboxMinLeft (chart :: assoc)
      unfold bboxMinLeft
      rw [hgL, he]
    · have hne : (chart :: assoc).map (fun m => tv m.left + tv m.width) ≠ [] := by
        simp
      have hmm := listMax_mem _ hne
      obtain ⟨m, hm, he⟩ := List.mem_map.1 hmm
      refine ⟨m, hm, ?_⟩
      show tv m.left + tv m.width =
        bboxMinLeft (chart :: assoc) +
          (bboxMaxRight (chart :: assoc) - bboxMinLeft (chart :: assoc))
      have : tv m.left + tv m.width = bboxMaxRight (chart :: assoc) := by
        unfold bboxMaxRight
        rw [hgLW, he]
      omega
    · have hne : (chart :: assoc).map (fun m => tv m.top) ≠ [] := by simp
      have hmm := listMin_mem _ hne
      obtain ⟨m, hm, he⟩ := List.mem_map.1 hmm
      refine ⟨m, hm, ?_⟩
      show tv m.top = bboxMinTop (chart :: assoc)
      unfold bboxMinTop
      rw [hgT, he]
    · have hne : (chart :: assoc).map (fun m => tv m.top + tv m.height) ≠ [] := by
        simp
      have hmm := listMax_mem _ hne
      obtain ⟨m, hm, he⟩ := List.mem_map.1 hmm
      refine ⟨m, hm, ?_⟩
      show tv m.top + tv m.height =
        bboxMinTop (chart :: assoc) +
          (bboxMaxBottom (chart :: assoc) - bboxMinTop (chart :: assoc))
      have : tv m.top + tv m.height = bboxMaxBottom (chart :: assoc) := by
        unfold bboxMaxBottom
        rw [he]
      omega
    · simp [groupOf]
    · intro i m hmi
      have hm : m ∈ chart :: assoc := List.getElem?_mem hmi
      refine ⟨shapeToChild (bboxMinLeft (chart :: assoc))
        (bboxMinTop (chart :: assoc)) m, ?_, ?_⟩
      · show ((chart :: assoc).map _)[i]? = _
        rw [List.getElem?_map, hmi]
        rfl
      · have hsome : m.left.isSome = true := (hgeo m hm).1
        simp [shapeToChild, hsome, groupOf, tv]

/-- Witness for C5 on the concrete three-shape slide, grouping the
chart with its single touching label. -/
theorem group_synthesizer_spec_witness :
    ∃ out, group_shapes_xml [wChart, wLabel, wFar] (wChart :: [wLabel]) = some out ∧
      out.length + (wChart :: [wLabel]).length = [wChart, wLabel, wFar].length + 1 ∧
      (∀ m ∈ wChart :: [wLabel], m ∉ out) ∧
      ∃ g, out.getLast? = some g ∧ g.stype = SType.group ∧
        (∀ m ∈ wChart :: [wLabel],
          tv g.left ≤ tv m.left ∧
          tv m.left + tv m.width ≤ tv g.left + tv g.width ∧
          tv g.top ≤ tv m.top ∧
          tv m.top + tv m.height ≤ tv g.top + tv g.height) ∧
        (∃ m ∈ wChart :: [wLabel], tv m.left = tv g.left) ∧
        (∃ m ∈ wChart :: [wLabel], tv m.left + tv m.width = tv g.left + tv g.width) ∧
        (∃ m ∈ wChart :: [wLabel], tv m.top = tv g.top) ∧
        (∃ m ∈ wChart :: [wLabel], tv m.top + tv m.height = tv g.top + tv g.height) ∧
        g.children.length = (wChart :: [wLabel]).length ∧
        (∀ (i : Nat) (m : Shape), (wChart :: [wLabel])[i]? = some m →
          ∃ ch, g.children[i]? = some ch ∧
            ch.left = some (tv m.left - tv g.left) ∧
            ch.top = some (tv m.top - tv g.top) ∧
            ch.width = m.width ∧ ch.height = m.height) :=
  group_synthesizer_spec [wChart, wLabel, wFar] wChart [wLabel]
    (by simp) (by decide) (by decide) (by decide) (by decide)

/-! ## C6 helper lemmas: the nearest-chart scan -/

theorem opt_le_refl (a : Option Int) : opt_le a a := by
  cases a <;> simp [opt_le]

theorem optLt_to_le (a b : Option Int) (h : optLt a b = true) : opt_le a b := by
  cases a <;> cases b <;> simp_all [optLt, opt_le]
  omega

theorem opt_nlt_to_le (a b : Option Int) (h : optLt a b = false) : opt_le b a := by
  cases a <;> cases b <;> simp_all [optLt, opt_le]

theorem opt_le_trans (a b c : Option Int) (h1 : opt_le a b) (h2 : opt_le b c) :
    opt_le a c := by
  cases a <;> cases b <;> cases c <;> simp_all [opt_le]
  omega

theorem optLt_some_left (a b : Option Int) (h : optLt a b = true) :
    ∃ x, a = some x := by
  cases a <;> simp_all [optLt]

theorem nearestChart_eq_fold (charts : List Shape) (s : Shape) :
    nearestChart charts s =
      (charts.foldl (nearStep s) ((0 : Nat), none, none)).2 := by
  rfl

theorem nearest_fold_spec (s : Shape) :
    ∀ (cs : List Shape) (k : Nat) (bi : Option Nat) (bd : Option Int),
      bi.isSome = bd.isSome →
      ((cs.foldl (nearStep s) (k, bi, bd)).2.1.isSome =
        (cs.foldl (nearStep s) (k, bi, bd)).2.2.isSome) ∧
      opt_le (cs.foldl (nearStep s) (k, bi, bd)).2.2 bd ∧
      (∀ c ∈ cs, opt_le (cs.foldl (nearStep s) (k, bi, bd)).2.2
        (dist_sq_to_chart s c)) ∧
      (∀ i d, (cs.foldl (nearStep s) (k, bi, bd)).2.1 = some i →
        (cs.foldl (nearStep s) (k, bi, bd)).2.2 = some d →
        (bi = some i ∧ bd = some d) ∨
        (∃ c j, k ≤ j ∧ cs[j - k]? = some c ∧ i = j ∧
          dist_sq_to_chart s c = some d)) := by
  intro cs
  induction cs with
  | nil =>
      intro k bi bd hpair
      refine ⟨hpair, opt_le_refl bd, ?_, ?_⟩
      · intro c hc
        cases hc
      · intro i d h1 h2
        exact Or.inl ⟨h1, h2⟩
  | cons c0 t ih =>
      intro k bi bd hpair
      simp only [List.foldl_cons]
      by_cases hlt : optLt (dist_sq_to_chart s c0) bd = true
      · have hstep : nearStep s (k, bi, bd) c0 =
            (k + 1, some k, dist_sq_to_chart s c0) := by
          simp [nearStep, hlt]
        rw [hstep]
        obtain ⟨d0, hd0⟩ := optLt_some_left _ _ hlt
        have hih := ih (k + 1) (some k) (dist_sq_to_chart s c0) (by rw [hd0]; rfl)
        refine ⟨hih.1, ?_, ?_, ?_⟩
        · exact opt_le_trans _ _ _ hih.2.1 (optLt_to_le _ _ hlt)
        · intro c hc
          rcases List.mem_cons.1 hc with he | he
          · exact he ▸ hih.2.1
          · exact hih.2.2.1 c he
        · intro i d h1 h2
          rcases hih.2.2.2 i d h1 h2 with ⟨hbi, hbd⟩ | ⟨c, j, hkj, hcj, hij, hdj⟩
          · refine Or.inr ⟨c0, k, le_refl k, ?_, ?_, ?_⟩
            · simp
            · exact Option.some.inj hbi.symm
            · rw [← hbd]
          · refine Or.inr ⟨c, j, by omega, ?_, hij, hdj⟩
            have hJ : j - k = (j - (k + 1)) + 1 := by omega
            rw [hJ, List.getElem?_cons_succ]
            exact hcj
      · have hstep : nearStep s (k, bi, bd) c0 = (k + 1, bi, bd) := by
          simp [nearStep, hlt]
        rw [hstep]
        have hih := ih (k + 1) bi bd hpair
        refine ⟨hih.1, hih.2.1, ?_, ?_⟩
        · intro c hc
          rcases List.mem_cons.1 hc with he | he
          · subst he
            exact opt_le_trans _ _ _ hih.2.1
              (opt_nlt_to_le _ _ (Bool.not_eq_true _ ▸ by simpa using hlt))
          · exact hih.2.2.1 c he
        · intro i d h1 h2
          rcases hih.2.2.2 i d h1 h2 with h | ⟨c, j, hkj, hcj, hij, hdj⟩
          · exact Or.inl h
          · refine Or.inr ⟨c, j, by omega, ?_, hij, hdj⟩
            have hJ : j - k = (j - (k + 1)) + 1 := by omega
            rw [hJ, List.getElem?_cons_succ]
            exact hcj

/-- An assignment points at a real chart of the list, at distance 0
(squared distance ≤ 0), and only eligible shapes are assigned. -/
theorem assignedChart_some (charts : List Shape) (s : Shape) (i : Nat)
    (h : assignedChart charts s = some i) :
    eligibleShape s = true ∧
    ∃ c, charts[i]? = some c ∧ ∃ d, dist_sq_to_chart s c = some d ∧ d ≤ 0 := by
  unfold assignedChart at h
  split at h
  case isTrue hel =>
    refine ⟨hel, ?_⟩
    rcases hnc : nearestChart charts s with ⟨bi, bd⟩
    rw [hnc] at h
    rcases bi with _ | i0 <;> rcases bd with _ | d0 <;> simp at h
    have hspec := nearest_fold_spec s charts 0 none none rfl
    rw [nearestChart_eq_fold] at hnc
    have h1 : (charts.foldl (nearStep s) (0, none, none)).2.1 = some i0 := by
      rw [show (charts.foldl (nearStep s) (0, none, none)).2 = (some i0, some d0)
        from hnc]
    have h2 : (charts.foldl (nearStep s) (0, none, none)).2.2 = some d0 := by
      rw [show (charts.foldl (nearStep s) (0, none, none)).2 = (some i0, some d0)
        from hnc]
    rcases hspec.2.2.2 i0 d0 h1 h2 with ⟨hbi, _⟩ | ⟨c, j, _, hcj, hij, hdj⟩
    · exact Option.noConfusion hbi
    · refine ⟨c, ?_, d0, hdj, h.1⟩
      rw [← h.2, hij]
      simpa using hcj
  case isFalse hel => exact Option.noConfusion h

/-- Conversely: an eligible shape touching some chart of the list is
assigned (to some chart). -/
theorem assignedChart_isSome (charts : List Shape) (s : Shape)
    (hel : eligibleShape s = true) (c : Shape) (hc : c ∈ charts)
    (d : Int) (hd : dist_sq_to_chart s c = some d) (hd0 : d ≤ 0) :
    assignedChart charts s ≠ none := by
  unfold assignedChart
  rw [if_pos hel]
  have hspec := nearest_fold_spec s charts 0 none none rfl
  have hle := hspec.2.2.1 c hc
  rw [hd] at hle
  rcases hbd : (charts.foldl (nearStep s) (0, none, none)).2.2 with _ | d'
  · rw [hbd] at hle
    exact absurd hle (by simp [opt_le])
  · rw [hbd] at hle
    have hd' : d' ≤ d := hle
    have hpair := hspec.1
    rw [hbd] at hpair
    rcases hbi : (charts.foldl (nearStep s) (0, none, none)).2.1 with _ | i0
    · rw [hbi] at hpair
      simp at hpair
    · rw [nearestChart_eq_fold]
      rcases hp : (charts.foldl (nearStep s) (0, none, none)).2 with ⟨bi', bd'⟩
      have hbi' : bi' = some i0 := by rw [← hbi, hp]
      have hbd' : bd' = some d' := by rw [← hbd, hp]
      subst hbi' hbd'
      simp only
      rw [if_pos (by omega : d' ≤ 0)]
      exact Option.noConfusion

/-! ## C6 helper lemmas: the related-shape collection loop -/

theorem collectRelated_eq_fold (amap : List (Nat × Nat)) (cidx : Nat)
    (chart : Shape) (cur : List Shape) (alr : List Nat) :
    collectRelated amap cidx chart cur alr =
      cur.foldl (collStep amap cidx) ([chart], chart.sid :: alr) := by
  rfl

/-- Structure of the collection fold: it appends a sound family of
members and pushes exactly their ids. -/
theorem collFold_structure (amap : List (Nat × Nat)) (cidx : Nat) :
    ∀ (cur : List Shape) (acc : List Shape × List Nat),
      ∃ added : List Shape,
        (cur.foldl (collStep amap cidx) acc).1 = acc.1 ++ added ∧
        (cur.foldl (collStep amap cidx) acc).2 =
          (added.map Shape.sid).reverse ++ acc.2 ∧
        ∀ m ∈ added, m ∈ cur ∧ eligibleShape m = true ∧
          amap.lookup m.sid = some cidx := by
  intro cur
  induction cur with
  | nil =>
      intro acc
      exact ⟨[], by simp, by simp, by simp⟩
  | cons s t ih =>
      intro acc
      simp only [List.foldl_cons]
      by_cases h1 : acc.2.contains s.sid
      · obtain ⟨added, ha, hb, hc⟩ := ih acc
        have hstep : collStep amap cidx acc s = acc := by
          simp only [collStep]
          rw [if_pos h1]
        rw [hstep]
        exact ⟨added, ha, hb, fun m hm =>
          ⟨List.mem_cons_of_mem s (hc m hm).1, (hc m hm).2.1, (hc m hm).2.2⟩⟩
      · by_cases h2 : s.stype = SType.group
        · obtain ⟨added, ha, hb, hc⟩ := ih acc
          have hstep : collStep amap cidx acc s = acc := by
            simp only [collStep]
            rw [if_neg h1, if_pos h2]
          rw [hstep]
          exact ⟨added, ha, hb, fun m hm =>
            ⟨List.mem_cons_of_mem s (hc m hm).1, (hc m hm).2.1, (hc m hm).2.2⟩⟩
        · by_cases h3 : s.stype = SType.chart
          · obtain ⟨added, ha, hb, hc⟩ := ih acc
            have hstep : collStep amap cidx acc s = acc := by
              simp only [collStep]
              rw [if_neg h1, if_neg h2, if_pos h3]
            rw [hstep]
            exact ⟨added, ha, hb, fun m hm =>
              ⟨List.mem_cons_of_mem s (hc m hm).1, (hc m hm).2.1, (hc m hm).2.2⟩⟩
          · by_cases h4 : s.isTitlePlaceholder
            · obtain ⟨added, ha, hb, hc⟩ := ih acc
              have hstep : collStep amap cidx acc s = acc := by
                simp only [collStep]
                rw [if_neg h1, if_neg h2, if_neg h3, if_pos h4]
              rw [hstep]
              exact ⟨added, ha, hb, fun m hm =>
                ⟨List.mem_cons_of_mem s (hc m hm).1, (hc m hm).2.1, (hc m hm).2.2⟩⟩
            · by_cases h5 : amap.lookup s.sid = some cidx
              · have hstep : collStep amap cidx acc s =
                    (acc.1 ++ [s], s.sid :: acc.2) := by
                  unfold collStep
                  rw [if_neg h1, if_neg h2, if_neg h3, if_neg h4, if_pos h5]
                rw [hstep]
                obtain ⟨added, ha, hb, hc⟩ := ih (acc.1 ++ [s], s.sid :: acc.2)
                refine ⟨s :: added, ?_, ?_, ?_⟩
                · rw [ha]
                  simp
                · rw [hb]
                  simp
                · intro m hm
                  rcases List.mem_cons.1 hm with he | he
                  · subst he
                    refine ⟨List.mem_cons_self m t, ?_, h5⟩
                    simp [eligibleShape, h2, h3, h4]
                  · exact ⟨List.mem_cons_of_mem s (hc m he).1,
                      (hc m he).2.1, (hc m he).2.2⟩
              · obtain ⟨added, ha, hb, hc⟩ := ih acc
                have hstep : collStep amap cidx acc s = acc := by
                  simp only [collStep]
                  rw [if_neg h1, if_neg h2, if_neg h3, if_neg h4, if_neg h5]
                rw [hstep]
                exact ⟨added, ha, hb, fun m hm =>
                  ⟨List.mem_cons_of_mem s (hc m hm).1, (hc m hm).2.1,
                    (hc m hm).2.2⟩⟩

/-- Completeness of the collection loop: an eligible shape of the
walked tree assigned to this chart, whose id is not yet marked
grouped, ends up in the related list (by id). -/
theorem collFold_complete (amap : List (Nat × Nat)) (cidx : Nat) :
    ∀ (cur : List Shape) (acc : List Shape × List Nat) (x : Shape),
      (cur.map Shape.sid).Nodup →
      x ∈ cur → eligibleShape x = true → amap.lookup x.sid = some cidx →
      x.sid ∉ acc.2 →
      x.sid ∈ (cur.foldl (collStep amap cidx) acc).1.map Shape.sid := by
  intro cur
  induction cur with
  | nil =>
      intro acc x _ hx
      cases hx
  | cons s t ih =>
      intro acc x hnod hx hel hlk hna
      simp only [List.foldl_cons]
      rcases List.mem_cons.1 hx with he | he
      · subst he
        have hel' := hel
        simp only [eligibleShape, Bool.and_eq_true, decide_eq_true_eq,
          Bool.not_eq_true] at hel'
        have hstep : collStep amap cidx acc x =
            (acc.1 ++ [x], x.sid :: acc.2) := by
          simp only [collStep]
          rw [if_neg (by simpa using hna), if_neg (by simp [hel'.2.1]),
            if_neg (by simp [hel'.1]), if_neg (by simp [hel'.2.2]), if_pos hlk]
        rw [hstep]
        obtain ⟨added, ha, _, _⟩ := collFold_structure amap cidx t
          (acc.1 ++ [x], x.sid :: acc.2)
        rw [ha]
        simp
      · have hsid : x.sid ≠ s.sid := by
          intro hcon
          have := (List.nodup_cons.1 hnod).1
          exact this (hcon ▸ List.mem_map_of_mem Shape.sid he)
        have hna' : x.sid ∉ (collStep amap cidx acc s).2 := by
          simp only [collStep]
          split
          · exact hna
          · split
            · exact hna
            · split
              · exact hna
              · split
                · exact hna
                · split
                  · simp only [List.mem_cons]
                    rintro (hc | hc)
                    · exact hsid hc
                    · exact hna hc
                  · exact hna
        exact ih (collStep amap cidx acc s) x (List.nodup_cons.1 hnod).2 he
          hel hlk hna'

/-- If nothing in the walked tree is assigned to this chart, the
collection returns just the chart itself. -/
theorem collFold_nil (amap : List (Nat × Nat)) (cidx : Nat) :
    ∀ (cur : List Shape) (acc : List Shape × List Nat),
      (∀ s ∈ cur, amap.lookup s.sid ≠ some cidx) →
      cur.foldl (collStep amap cidx) acc = acc := by
  intro cur
  induction cur with
  | nil => intro acc _; rfl
  | cons s t ih =>
      intro acc hnone
      simp only [List.foldl_cons]
      have hstep : collStep amap cidx acc s = acc := by
        simp only [collStep]
        split
        · rfl
        · split
          · rfl
          · split
            · rfl
            · split
              · rfl
              · rw [if_neg (hnone s (List.mem_cons_self s t))]
      rw [hstep]
      exact ih acc (fun x hx => hnone x (List.mem_cons_of_mem s hx))

/-! ## C6 helper lemmas: the association map -/

theorem lookup_none_of_keys (l : List (Nat × Nat)) (x : Nat)
    (h : ∀ p ∈ l, p.1 ≠ x) : l.lookup x = none := by
  induction l with
  | nil => rfl
  | cons p t ih =>
      simp only [List.lookup]
      have hne : (x == p.1) = false := by
        simp [Ne.symm (h p (List.mem_cons_self p t))]
      rw [hne]
      exact ih (fun q hq => h q (List.mem_cons_of_mem p hq))

theorem buildAssoc_keys (shapes : List Shape) :
    ∀ p ∈ buildAssoc shapes, ∃ t ∈ shapes, t.sid = p.1 ∧
      assignedChart (shapes.filter is_chart) t = some p.2 := by
  intro p hp
  unfold buildAssoc at hp
  obtain ⟨t, hts, hft⟩ := List.mem_filterMap.1 hp
  rcases ha : assignedChart (shapes.filter is_chart) t with _ | i
  · rw [ha] at hft
    simp at hft
  · rw [ha] at hft
    simp only [Option.map_some', Option.some.injEq] at hft
    subst hft
    exact ⟨t, hts, rfl, ha⟩

/-- With duplicate-free ids, the association map's lookup for a shape
on the slide is exactly its nearest-chart assignment. -/
theorem buildAssoc_lookup (shapes : List Shape)
    (hnod : (shapes.map Shape.sid).Nodup) (s : Shape) (hs : s ∈ shapes) :
    (buildAssoc shapes).lookup s.sid =
      assignedChart (shapes.filter is_chart) s := by
  unfold buildAssoc
  have hgen : ∀ (l : List Shape), (l.map Shape.sid).Nodup → s ∈ l →
      (l.filterMap (fun t => (assignedChart (shapes.filter is_chart) t).map
        (fun i => (t.sid, i)))).lookup s.sid =
        assignedChart (shapes.filter is_chart) s := by
    intro l
    induction l with
    | nil => intro _ hmem; cases hmem
    | cons t rest ih =>
        intro hnodl hmem
        rcases List.mem_cons.1 hmem with he | he
        · subst he
          rcases ha : assignedChart (shapes.filter is_chart) s with _ | i
          · simp only [List.filterMap_cons, ha, Option.map_none']
            apply lookup_none_of_keys
            intro p hp
            obtain ⟨u, hu, hfu⟩ := List.mem_filterMap.1 hp
            rcases hau : assignedChart (shapes.filter is_chart) u with _ | j
            · rw [hau] at hfu
              simp at hfu
            · rw [hau] at hfu
              simp only [Option.map_some', Option.some.injEq] at hfu
              subst hfu
              intro hcon
              have : s.sid ∈ rest.map Shape.sid := by
                rw [← hcon]
                exact List.mem_map_of_mem Shape.sid hu
              exact (List.nodup_cons.1 hnodl).1 this
          · simp only [List.filterMap_cons, ha, Option.map_some']
            simp [List.lookup]
        · have hsid : s.sid ≠ t.sid := by
            intro hcon
            have : t.sid ∈ rest.map Shape.sid := by
              rw [← hcon]
              exact List.mem_map_of_mem Shape.sid he
            exact (List.nodup_cons.1 hnodl).1 this
          rcases hat : assignedChart (shapes.filter is_chart) t with _ | j
          · simp only [List.filterMap_cons, hat, Option.map_none']
            exact ih (List.nodup_cons.1 hnodl).2 he
          · simp only [List.filterMap_cons, hat, Option.map_some']
            simp only [List.lookup]
            rw [show (s.sid == t.sid) = false by simp [hsid]]
            exact ih (List.nodup_cons.1 hnodl).2 he
  exact hgen shapes hnod hs

/-! ## C6 helper lemmas: effects of the tree surgery -/

theorem sid_inj (shapes : List Shape) (hnod : (shapes.map Shape.sid).Nodup)
    (x : Shape) (hx : x ∈ shapes) (y : Shape) (hy : y ∈ shapes)
    (hxy : x.sid = y.sid) : x = y :=
  List.inj_on_of_nodup_map hnod hx hy hxy

theorem dist_sq_some_defined (s c : Shape) (d : Int)
    (h : dist_sq_to_chart s c = some d) :
    s.left.isSome = true ∧ s.top.isSome = true ∧
    c.left.isSome = true ∧ c.top.isSome = true := by
  unfold dist_sq_to_chart at h
  rcases h1 : s.left with _ | a <;> rcases h2 : s.top with _ | b <;>
    rcases h3 : c.left with _ | e <;> rcases h4 : c.top with _ | f <;>
    rw [h1, h2, h3, h4] at h <;> simp_all

theorem eligibleShape_spec (x : Shape) :
    eligibleShape x = true ↔
      x.stype ≠ SType.chart ∧ x.stype ≠ SType.group ∧
        x.isTitlePlaceholder = false := by
  simp [eligibleShape]

theorem group_shapes_xml_succeeds (cur members : List Shape) (c : Shape)
    (hc : c ∈ members) (hlen : 2 ≤ members.length)
    (hl : c.left.isSome = true) (ht : c.top.isSome = true)
    (hw : c.width.isSome = true) :
    group_shapes_xml cur members =
      some ((cur.filter fun s => ¬(members.map Shape.sid).contains s.sid)
        ++ [groupOf cur members]) := by
  unfold group_shapes_xml
  rw [if_neg (by omega), if_neg]
  intro hcon
  rcases hcon with h | h | h
  · exact List.ne_nil_of_mem
      (List.mem_filter.2 ⟨hc, by simpa using hl⟩) (List.isEmpty_iff.1 h)
  · exact List.ne_nil_of_mem
      (List.mem_filter.2 ⟨hc, by simpa using ht⟩) (List.isEmpty_iff.1 h)
  · exact List.ne_nil_of_mem
      (List.mem_filter.2 ⟨hc, by simp [hl, hw]⟩) (List.isEmpty_iff.1 h)

theorem xml_out_props (cur members : List Shape)
    (hnod : (cur.map Shape.sid).Nodup) :
    (((cur.filter fun s => ¬(members.map Shape.sid).contains s.sid)
        ++ [groupOf cur members]).map Shape.sid).Nodup ∧
    (∀ x ∈ (cur.filter fun s => ¬(members.map Shape.sid).contains s.sid)
        ++ [groupOf cur members], x.stype ≠ SType.group → x ∈ cur) ∧
    (∀ x ∈ (cur.filter fun s => ¬(members.map Shape.sid).contains s.sid)
        ++ [groupOf cur members], x.sid ∈ members.map Shape.sid →
      x = groupOf cur members) := by
  refine ⟨?_, ?_, ?_⟩
  · rw [List.map_append]
    have hsubl : ((cur.filter fun s =>
        ¬(members.map Shape.sid).contains s.sid).map Shape.sid).Sublist
        (cur.map Shape.sid) :=
      (List.filter_sublist cur).map Shape.sid
    have hnod1 := hnod.sublist hsubl
    have hnotin : (groupOf cur members).sid ∉
        (cur.filter fun s => ¬(members.map Shape.sid).contains s.sid).map
          Shape.sid := by
      intro hmem
      obtain ⟨x, hxf, hxs⟩ := List.mem_map.1 hmem
      have hxc : x ∈ cur := List.mem_of_mem_filter hxf
      have := sid_lt_freshSid cur x hxc
      have hg : (groupOf cur members).sid = freshSid cur := rfl
      omega
    refine hnod1.append (List.nodup_singleton _) ?_
    intro a ha1 ha2
    have : a = (groupOf cur members).sid := by simpa using ha2
    exact hnotin (this ▸ ha1)
  · intro x hx hxg
    rcases List.mem_append.1 hx with hf | hg
    · exact List.mem_of_mem_filter hf
    · have : x = groupOf cur members := by simpa using hg
      exact absurd (by rw [this]; rfl) hxg
  · intro x hx hxs
    rcases List.mem_append.1 hx with hf | hg
    · have hpred := (List.mem_filter.1 hf).2
      simp at hpred
      obtain ⟨m, hm, hms⟩ := List.mem_map.1 hxs
      exact absurd (hms ▸ List.mem_map_of_mem Shape.sid hm) (by
        intro hcon
        obtain ⟨m', hm', hms'⟩ := List.mem_map.1 hcon
        exact hpred m' hm' hms')
    · simpa using hg

/-! ## C6: the run invariant of `group_chart_elements` -/

theorem processChart_inv (shapes : List Shape)
    (hnod : (shapes.map Shape.sid).Nodup)
    (hcw : ∀ c ∈ shapes, is_chart c = true → c.width.isSome = true)
    (k : Nat) (chart : Shape)
    (hck : (shapes.filter is_chart)[k]? = some chart)
    (st : GState) (hinv : RunInv shapes k st) :
    RunInv shapes (k + 1) (processChart (buildAssoc shapes) st k chart) := by
  obtain ⟨ha, hb, hc, hd⟩ := hinv
  have hchmem : chart ∈ shapes.filter is_chart := List.getElem?_mem hck
  have hchart_in : chart ∈ shapes := List.mem_of_mem_filter hchmem
  have hchart_is : is_chart chart = true := (List.mem_filter.1 hchmem).2
  have hchart_stype : chart.stype = SType.chart := by
    simpa [is_chart] using hchart_is
  have hchnel : eligibleShape chart = false := by
    simp [eligibleShape, hchart_stype]
  have hnodch : ((shapes.filter is_chart).map Shape.sid).Nodup :=
    hnod.sublist ((List.filter_sublist shapes).map Shape.sid)
  -- the chart is never already grouped
  have hskip : ¬(st.alr.contains chart.sid = true) := by
    intro hcontains
    have hmem : chart.sid ∈ st.alr := by simpa using hcontains
    obtain ⟨t, hts, htsid, hcase⟩ := hd chart.sid hmem
    have hteq : t = chart := sid_inj shapes hnod t hts chart hchart_in htsid
    subst hteq
    rcases hcase with ⟨_, j, hjk, hj⟩ | ⟨hel, _⟩
    · have hnodel : (shapes.filter is_chart).Nodup := List.Nodup.of_map _ hnodch
      have hlt : j < (shapes.filter is_chart).length :=
        (List.getElem?_eq_some_iff.1 hj).1
      have := List.getElem?_inj hlt hnodel (hj.trans hck.symm)
      omega
    · rw [hel] at hchnel
      exact Bool.noConfusion hchnel
  -- x.sid ≠ chart.sid for eligible x of the current tree
  have hxne : ∀ x ∈ st.cur, eligibleShape x = true → x.sid ≠ chart.sid := by
    intro x hx hel hcon
    have hxsh : x ∈ shapes := hb x hx (by
      have := (eligibleShape_spec x).1 hel
      exact this.2.1)
    have := sid_inj shapes hnod x hxsh chart hchart_in hcon
    rw [this] at hel
    rw [hel] at hchnel
    exact Bool.noConfusion hchnel
  -- structure of the collection
  obtain ⟨added, hrel1, hrel2, hsound⟩ :=
    collFold_structure (buildAssoc shapes) k st.cur
      ([chart], chart.sid :: st.alr)
  rw [← collectRelated_eq_fold] at hrel1 hrel2
  -- completeness instance
  have hcompl : ∀ x ∈ st.cur, eligibleShape x = true →
      (buildAssoc shapes).lookup x.sid = some k →
      x.sid ∈ (collectRelated (buildAssoc shapes) k chart st.cur st.alr).1.map
        Shape.sid := by
    intro x hx hel hlk
    rw [collectRelated_eq_fold]
    apply collFold_complete (buildAssoc shapes) k st.cur _ x ha hx hel hlk
    simp only [List.mem_cons, not_or]
    exact ⟨hxne x hx hel, ((hc x hx hel k hlk).2)⟩
  -- membership in the output already-grouped list
  have halr' : ∀ y ∈ (collectRelated (buildAssoc shapes) k chart st.cur
      st.alr).2, y ∈ added.map Shape.sid ∨ y = chart.sid ∨ y ∈ st.alr := by
    intro y hy
    rw [hrel2] at hy
    rcases List.mem_append.1 hy with h | h
    · exact Or.inl (List.mem_reverse.1 h)
    · rcases List.mem_cons.1 h with h | h
      · exact Or.inr (Or.inl h)
      · exact Or.inr (Or.inr h)
  have hdnew : ∀ y ∈ (collectRelated (buildAssoc shapes) k chart st.cur
      st.alr).2, ∃ t, t ∈ shapes ∧ t.sid = y ∧
      ((is_chart t = true ∧ ∃ j, j < k + 1 ∧
        (shapes.filter is_chart)[j]? = some t) ∨
       (eligibleShape t = true ∧ ∃ j, j < k + 1 ∧
         (buildAssoc shapes).lookup y = some j)) := by
    intro y hy
    rcases halr' y hy with h | h | h
    · obtain ⟨m, hm, hms⟩ := List.mem_map.1 h
      obtain ⟨hmc, hmel, hmlk⟩ := hsound m hm
      have hmsh : m ∈ shapes := hb m hmc ((eligibleShape_spec m).1 hmel).2.1
      exact ⟨m, hmsh, hms, Or.inr ⟨hmel, k, by omega, hms ▸ hmlk⟩⟩
    · exact ⟨chart, hchart_in, h.symm, Or.inl ⟨hchart_is, k, by omega, hck⟩⟩
    · obtain ⟨t, hts, htsid, hcase⟩ := hd y h
      refine ⟨t, hts, htsid, ?_⟩
      rcases hcase with ⟨h1, j, hj, h2⟩ | ⟨h1, j, hj, h2⟩
      · exact Or.inl ⟨h1, j, by omega, h2⟩
      · exact Or.inr ⟨h1, j, by omega, h2⟩
  unfold processChart
  rw [if_neg hskip]
  by_cases hgt : (collectRelated (buildAssoc shapes) k chart st.cur
      st.alr).1.length > 1
  · rw [if_pos hgt]
    -- the surgery succeeds: the chart has defined left/top/width
    have hchdef : chart.left.isSome = true ∧ chart.top.isSome = true := by
      rcases hadd : added with _ | ⟨m, rest⟩
      · rw [hrel1, hadd] at hgt
        simp at hgt
      · have hm : m ∈ added := by rw [hadd]; exact List.mem_cons_self m rest
        obtain ⟨hmc, hmel, hmlk⟩ := hsound m hm
        have hmsh : m ∈ shapes := hb m hmc ((eligibleShape_spec m).1 hmel).2.1
        have hass : assignedChart (shapes.filter is_chart) m = some k := by
          rw [← buildAssoc_lookup shapes hnod m hmsh]
          exact hmlk
        obtain ⟨_, c, hc', d, hdist, _⟩ := assignedChart_some _ m k hass
        have hceq : c = chart := by
          rw [hck] at hc'
          exact (Option.some.inj hc').symm
        subst hceq
        have := dist_sq_some_defined m c d hdist
        exact ⟨this.2.2.1, this.2.2.2⟩
    have hchw : chart.width.isSome = true := hcw chart hchart_in hchart_is
    have hchm : chart ∈ (collectRelated (buildAssoc shapes) k chart st.cur
        st.alr).1 := by
      rw [hrel1]
      exact List.mem_cons_self chart added
    have hsucc := group_shapes_xml_succeeds st.cur
      (collectRelated (buildAssoc shapes) k chart st.cur st.alr).1 chart hchm
      (by omega) hchdef.1 hchdef.2 hchw
    rw [hsucc]
    obtain ⟨hp1, hp2, hp3⟩ := xml_out_props st.cur
      (collectRelated (buildAssoc shapes) k chart st.cur st.alr).1 ha
    refine ⟨hp1, ?_, ?_, ?_⟩
    · intro x hx hxg
      exact hb x (hp2 x hx hxg) hxg
    · intro x hx hel j hlk
      have hxg : x.stype ≠ SType.group := ((eligibleShape_spec x).1 hel).2.1
      have hxc : x ∈ st.cur := hp2 x hx hxg
      have hxnm : x.sid ∉ (collectRelated (buildAssoc shapes) k chart st.cur
          st.alr).1.map Shape.sid := by
        intro hcon
        have := hp3 x hx hcon
        have : x.stype = SType.group := by rw [this]; rfl
        exact hxg this
      have hbase := hc x hxc hel j hlk
      have hjne : j ≠ k := by
        intro hcon
        exact hxnm (hcompl x hxc hel (hcon ▸ hlk))
      refine ⟨by omega, ?_⟩
      intro hcon
      rcases halr' x.sid hcon with h | h | h
      · exact hxnm (by
          rw [hrel1, show ([chart] ++ added) = chart :: added from rfl]
          simp only [List.map_cons, List.mem_cons]
          exact Or.inr h)
      · exact hxne x hxc hel h
      · exact hbase.2 h
    · exact hdnew
  · rw [if_neg hgt]
    have hadded : added = [] := by
      rcases hadd : added with _ | ⟨m, rest⟩
      · rfl
      · rw [hrel1, hadd] at hgt
        simp at hgt
    refine ⟨ha, hb, ?_, hdnew⟩
    intro x hx hel j hlk
    have hbase := hc x hx hel j hlk
    have hjne : j ≠ k := by
      intro hcon
      have := hcompl x hx hel (hcon ▸ hlk)
      rw [hrel1, hadded] at this
      simp at this
      exact hxne x hx hel this
    refine ⟨by omega, ?_⟩
    intro hcon
    rcases halr' x.sid hcon with h | h | h
    · rw [hadded] at h
      cases h
    · exact hxne x hx hel h
    · exact hbase.2 h

theorem processAll_inv (shapes : List Shape)
    (hnod : (shapes.map Shape.sid).Nodup)
    (hcw : ∀ c ∈ shapes, is_chart c = true → c.width.isSome = true) :
    ∀ (cs : List Shape) (k : Nat) (st : GState),
      (shapes.filter is_chart).drop k = cs →
      RunInv shapes k st →
      RunInv shapes (k + cs.length)
        (processAll (buildAssoc shapes) cs k st) := by
  intro cs
  induction cs with
  | nil =>
      intro k st _ hinv
      simpa using hinv
  | cons c rest ih =>
      intro k st hdrop hinv
      have hk : k < (shapes.filter is_chart).length := by
        by_contra hcon
        rw [List.drop_eq_nil_of_le (by omega)] at hdrop
        exact List.noConfusion hdrop
      have hck : (shapes.filter is_chart)[k]? = some c := by
        have h0 : ((shapes.filter is_chart).drop k)[0]? = some c := by
          rw [hdrop]
          simp
        rw [List.getElem?_drop] at h0
        simpa using h0
      have hdrop' : (shapes.filter is_chart).drop (k + 1) = rest := by
        have : (shapes.filter is_chart).drop (k + 1) =
            ((shapes.filter is_chart).drop k).drop 1 := by
          rw [List.drop_drop]
        rw [this, hdrop]
        rfl
      have hstep := processChart_inv shapes hnod hcw k c hck st hinv
      have := ih (k + 1) (processChart (buildAssoc shapes) st k c) hdrop' hstep
      simp only [processAll, List.length_cons]
      have harith : k + 1 + rest.length = k + (rest.length + 1) := by omega
      rw [← harith]
      exact this

/-- The association map only points below the chart count. -/
theorem lookup_lt_charts (shapes : List Shape)
    (hnod : (shapes.map Shape.sid).Nodup) (x : Shape) (hx : x ∈ shapes)
    (j : Nat) (hlk : (buildAssoc shapes).lookup x.sid = some j) :
    j < (shapes.filter is_chart).length := by
  rw [buildAssoc_lookup shapes hnod x hx] at hlk
  obtain ⟨_, c, hc, _⟩ := assignedChart_some _ x j hlk
  exact (List.getElem?_eq_some_iff.1 hc).1

/-- What run 1 guarantees about its output slide: ids stay
duplicate-free, non-group top-level shapes are unchanged input shapes,
and no surviving eligible shape is assigned to any input chart. -/
theorem run1_final (shapes : List Shape)
    (hnod : (shapes.map Shape.sid).Nodup)
    (hcw : ∀ c ∈ shapes, is_chart c = true → c.width.isSome = true) :
    (((group_chart_elements shapes).1.map Shape.sid).Nodup) ∧
    (∀ x ∈ (group_chart_elements shapes).1, x.stype ≠ SType.group →
      x ∈ shapes) ∧
    (∀ x ∈ (group_chart_elements shapes).1, eligibleShape x = true →
      assignedChart (shapes.filter is_chart) x = none) := by
  unfold group_chart_elements
  by_cases hemp : (shapes.filter is_chart).isEmpty
  · rw [if_pos hemp]
    refine ⟨hnod, fun x hx _ => hx, ?_⟩
    intro x hx hel
    have : shapes.filter is_chart = [] := List.isEmpty_iff.1 hemp
    rw [this]
    unfold assignedChart nearestChart
    rw [if_pos hel]
    rfl
  · rw [if_neg hemp]
    have hbase : RunInv shapes 0 { cur := shapes, alr := [], created := 0 } := by
      refine ⟨hnod, fun x hx _ => hx, ?_, ?_⟩
      · intro x _ _ j _
        exact ⟨Nat.zero_le j, by simp⟩
      · intro y hy
        cases hy
    have hfin := processAll_inv shapes hnod hcw (shapes.filter is_chart) 0
      { cur := shapes, alr := [], created := 0 } rfl hbase
    obtain ⟨ha, hb, hc, _⟩ := hfin
    refine ⟨ha, hb, ?_⟩
    intro x hx hel
    rcases hassign : assignedChart (shapes.filter is_chart) x with _ | j
    · rfl
    · have hxsh : x ∈ shapes := hb x hx ((eligibleShape_spec x).1 hel).2.1
      have hlk : (buildAssoc shapes).lookup x.sid = some j := by
        rw [buildAssoc_lookup shapes hnod x hxsh, hassign]
      have h1 := (hc x hx hel j hlk).1
      have h2 := lookup_lt_charts shapes hnod x hxsh j hlk
      omega

/-- Run 2 creates nothing when every shape of the walked tree has an
empty association lookup. -/
theorem processAll_zero (amap : List (Nat × Nat)) :
    ∀ (cs : List Shape) (k : Nat) (st : GState),
      (∀ s ∈ st.cur, amap.lookup s.sid = none) →
      (processAll amap cs k st).created = st.created ∧
      (processAll amap cs k st).cur = st.cur := by
  intro cs
  induction cs with
  | nil =>
      intro k st _
      exact ⟨rfl, rfl⟩
  | cons c rest ih =>
      intro k st hnone
      simp only [processAll]
      by_cases hskip : st.alr.contains c.sid = true
      · have hstep : processChart amap st k c = st := by
          unfold processChart
          rw [if_pos hskip]
        rw [hstep]
        exact ih (k + 1) st hnone
      · have hrel : collectRelated amap k c st.cur st.alr =
            ([c], c.sid :: st.alr) := by
          rw [collectRelated_eq_fold]
          apply collFold_nil
          intro s hs
          rw [hnone s hs]
          exact Option.noConfusion
        have hstep : processChart amap st k c =
            { cur := st.cur, alr := c.sid :: st.alr, created := st.created } := by
          unfold processChart
          rw [if_neg hskip, hrel]
          rw [if_neg (by simp)]
        rw [hstep]
        exact ih (k + 1) _ hnone

/-- C6 (confirmed).  `group_chart_elements` is idempotent on a
slide (with duplicate-free shape ids and charts with defined widths):
running it a second time on the slide it already processed creates no
additional groups — the second run's chart scan finds only charts with
no touching eligible shapes (every assigned shape was re-parented into
a group by the first run), so it returns 0. -/
theorem group_chart_elements_idempotent (shapes : List Shape)
    (hnod : (shapes.map Shape.sid).Nodup)
    (hcw : ∀ c ∈ shapes, is_chart c = true → c.width.isSome = true) :
    (group_chart_elements (group_chart_elements shapes).1).2 = 0 := by
  obtain ⟨hnod2, hsub2, hnone1⟩ := run1_final shapes hnod hcw
  have hlookup2 : ∀ s ∈ (group_chart_elements shapes).1,
      (buildAssoc (group_chart_elements shapes).1).lookup s.sid = none := by
    intro s hs
    rw [buildAssoc_lookup _ hnod2 s hs]
    rcases hassign : assignedChart
        ((group_chart_elements shapes).1.filter is_chart) s with _ | i
    · rfl
    · obtain ⟨hel, c, hc, d, hdist, hd0⟩ := assignedChart_some _ s i hassign
      have hcmem : c ∈ (group_chart_elements shapes).1.filter is_chart :=
        List.getElem?_mem hc
      have hcin : c ∈ (group_chart_elements shapes).1 :=
        List.mem_of_mem_filter hcmem
      have hcis : is_chart c = true := (List.mem_filter.1 hcmem).2
      have hcty : c.stype = SType.chart := by simpa [is_chart] using hcis
      have hcsh : c ∈ shapes := hsub2 c hcin (by rw [hcty]; decide)
      have hcch : c ∈ shapes.filter is_chart := List.mem_filter.2 ⟨hcsh, hcis⟩
      have := assignedChart_isSome (shapes.filter is_chart) s hel c hcch d
        hdist hd0
      exact absurd (hnone1 s hs hel) this
  have heval : ∀ l : List Shape, (group_chart_elements l).2 =
      if (l.filter is_chart).isEmpty then 0
      else (processAll (buildAssoc l) (l.filter is_chart) 0
        { cur := l, alr := [], created := 0 }).created := by
    intro l
    by_cases h : (l.filter is_chart).isEmpty
    · simp [group_chart_elements, h]
    · simp [group_chart_elements, h]
  rw [heval]
  by_cases hemp : ((group_chart_elements shapes).1.filter is_chart).isEmpty
  · rw [if_pos hemp]
  · rw [if_neg hemp]
    have := processAll_zero (buildAssoc (group_chart_elements shapes).1)
      ((group_chart_elements shapes).1.filter is_chart) 0
      { cur := (group_chart_elements shapes).1, alr := [], created := 0 }
      hlookup2
    exact this.1

/-- Witness for C6: the concrete chart + touching label + far shape
slide; the first run groups once, the second run creates nothing. -/
theorem group_chart_elements_idempotent_witness :
    (group_chart_elements (group_chart_elements [wChart, wLabel, wFar]).1).2
      = 0 :=
  group_chart_elements_idempotent [wChart, wLabel, wFar] (by decide) (by decide)

end Engine
